import Mathlib

/-!
Verification of the `cricket_rnn` ball-by-ball match-replay engine.

This file gives a shallow embedding, in Lean 4, of the core replay engine of
the `cricket-rnn-predictions` repository (`cricket_rnn/framework`): the raw
Cricsheet delivery records, the `Wicket`/`Ball`/`Over`/`Inning` data model, the
role accumulators (`Batter`, `Bowler`, `Fielder`), the stateful replay loop
(`RealInning.run` / `RealOver.run` / `RealBall.run`), and the
slots-based serialisation contract.  Python's in-place mutation is rendered as
explicit state passing; an exception raised mid-delivery is rendered as an
`Option String` error paired with the state reached at the moment of the raise
(mirroring the fact that mutations made before a Python exception persist).
Machine integers are `Nat`/`Int`; the few float quantities of the source
(rate metrics, spell accumulators) are modelled as exact rationals, noted at
each definition.
-/

namespace CricketRnn

/-! ## Dismissal-kind vocabulary (`cricsheet._aliases_and_constants.KindValues`) -/

def BOWLED : String := "bowled"

def LBW : String := "lbw"

def CAUGHT : String := "caught"

def CAUGHT_AND_BOWLED : String := "caught and bowled"

def STUMPED : String := "stumped"

def RUN_OUT : String := "run out"

/-- `KindValues.RETIRED_HURT` is the two-element list of retirement modes. -/
def RETIRED_HURT : List String := ["retired hurt", "retired not out"]

def HIT_WICKET : String := "hit wicket"

def OBSTRUCTING_THE_FIELD : String := "obstructing the field"

def TIMED_OUT : String := "timed out"

def HANDLED_THE_BALL : String := "handled the ball"

/-- `ball.BOWLING_WICKET_MODES`: the modes statistically credited to the bowler. -/
def BOWLING_WICKET_MODES : List String :=
  [BOWLED, LBW, CAUGHT, CAUGHT_AND_BOWLED, STUMPED, HIT_WICKET]

/-! ## Raw delivery records (Cricsheet JSON shapes used by the framework) -/

/-- The `runs` field of one delivery.  `nonBoundary` is `true` exactly when the
`non_boundary` key is present in the record (the code tests key presence, not
the stored value). -/
structure RunsDict where
  batter : Nat
  total : Nat
  nonBoundary : Bool
deriving Repr, DecidableEq

/-- The `extras` field of one delivery.  `noballs` is `some v` when the
`noballs` key is present with stored value `v` (`RealBall.__init__` tests key
presence only); the other four are read with `.get(key, 0)`, so an absent key
and a stored `0` are identified. -/
structure ExtrasDict where
  noballs : Option Nat := none
  wides : Nat := 0
  legbyes : Nat := 0
  byes : Nat := 0
  penalty : Nat := 0
deriving Repr, DecidableEq

/-- One entry of a wicket's `fielders` list: the fielder's name and whether the
`substitute` key is present in the entry. -/
structure FielderEntry where
  name : String
  substitutePresent : Bool
deriving Repr, DecidableEq

/-- The `wickets` entries of one delivery (`kind`, `player_out`, `fielders`). -/
structure WicketsDict where
  kind : String
  player_out : String
  fielders : List FielderEntry := []
deriving Repr, DecidableEq

/-- One delivery record (`BallDict`). -/
structure BallDict where
  batter : String
  non_striker : String
  bowler : String
  runs : RunsDict
  extras : ExtrasDict := {}
  wickets : List WicketsDict := []
deriving Repr, DecidableEq

/-! ## `ball.Wicket` -/

/-- `ball.Wicket`: dismissal mode, dismissed batter, credited bowler, and the
fielder-name/substitute-flag mapping (kept in record order). -/
structure Wicket where
  mode : String
  batter : String
  bowler : String
  fielders : List FielderEntry
deriving Repr, DecidableEq

/-- `ball.RealWicket.__init__`: build one `Wicket` from a raw `wickets` entry,
crediting the delivery's bowler. -/
def RealWicket.make (d : WicketsDict) (bowler : String) : Wicket :=
  { mode := d.kind, batter := d.player_out, bowler := bowler, fielders := d.fielders }

/-! ## Role accumulators (`roles.py`) -/

/-- `roles.Batter`: per-inning batting accumulator.  `position` is `none` for
an "absent hurt" batter (the source assigns Python `None`). -/
structure Batter where
  name : String
  long_name : String
  short_name : String
  style : String
  position : Option Nat
  true_position : Nat
  runs : Nat := 0
  balls : Nat := 0
  fours : Nat := 0
  sixes : Nat := 0
  dismissal : String := "not out"
deriving Repr, DecidableEq

/-- One entry of `Bowler.spells` (`np.zeros(4)` accumulating
`[balls/6, maidens, runs, wickets]`).  The source accumulates IEEE floats; the
components are modelled as exact rationals (no claim reads their values, only
the list's length). -/
structure Spell where
  oversSixths : ℚ := 0
  maidens : ℚ := 0
  runs : ℚ := 0
  wickets : ℚ := 0
deriving Repr, DecidableEq

/-- `roles.Bowler`: per-inning bowling accumulator.  `runs` accumulates
`Ball.bowling_runs`, an integer difference, hence `Int`. -/
structure Bowler where
  name : String
  long_name : String
  short_name : String
  style : String
  balls : Nat := 0
  maidens : Nat := 0
  runs : Int := 0
  wickets : Nat := 0
  extras : Nat := 0
  spells : List Spell := []
deriving Repr, DecidableEq

/-- `roles.Fielder`: per-inning fielding accumulator. -/
structure Fielder where
  name : String
  long_name : String
  short_name : String
  keeper : Bool
  substitute : Bool := false
  catches : Nat := 0
  stumpings : Nat := 0
  run_outs : Nat := 0
deriving Repr, DecidableEq

/-- `Fielder.__str__`: `'sub (short)'` for substitutes, a dagger prefix for the
keeper, otherwise the short name. -/
def Fielder.str (f : Fielder) : String :=
  if f.substitute then
    let s := f.short_name
    s!"sub ({s})"
  else (if f.keeper then "†" else "") ++ f.short_name

/-- `squads.Player`: immutable identity record. -/
structure Player where
  name : String
  long_name : String
  short_name : String
  id : Nat
  batting_style : String
  bowling_style : String
  team : String
deriving Repr, DecidableEq

/-- `roles.RealBatter.__init__`: a fresh batting accumulator for `player` at
list position `position` and playing-eleven position `true_position`. -/
def RealBatter.make (p : Player) (position : Nat) (truePosition : Nat) : Batter :=
  { name := p.name, long_name := p.long_name, short_name := p.short_name,
    style := p.batting_style, position := some position, true_position := truePosition }

/-- `roles.RealBowler.__init__`: a fresh bowling accumulator for `player`. -/
def RealBowler.make (p : Player) : Bowler :=
  { name := p.name, long_name := p.long_name, short_name := p.short_name,
    style := p.bowling_style }

/-- `roles.RealFielder.__init__`: a fresh fielding accumulator for `player`. -/
def RealFielder.make (p : Player) (keeper : Bool) (substitute : Bool) : Fielder :=
  { name := p.name, long_name := p.long_name, short_name := p.short_name,
    keeper := keeper, substitute := substitute }

/-! ## `ball.Ball` -/

/-- The numeric value of `Batter.strike_rate`: `self.runs / (self.balls + 1e-5) * 100`.
The source computes in IEEE floats and then formats with `'{:.2f}'`; the value
is modelled over exact rationals with `1e-5` as `1/100000` (the claims read
only that the denominator is never zero, the zero case, and the magnitude). -/
def strikeRateVal (runs balls : Nat) : ℚ :=
  (runs : ℚ) / ((balls : ℚ) + 1 / 100000) * 100

/-- The numeric value of `Bowler.economy`: `self.runs / (self.balls / 6 + 1e-5)`,
modelled over exact rationals like `strikeRateVal`. -/
def economyVal (runs : Int) (balls : Nat) : ℚ :=
  (runs : ℚ) / ((balls : ℚ) / 6 + 1 / 100000)

/-- `ball.Ball`: one delivery.  The first block are the constructor fields of
the Python dataclass; the final six are derived in `Ball.__post_init__`.
`bowling_runs` is `abs(self) - fielding_extras`, a Python `int` difference,
hence `Int`.  The `batter`/`non_striker`/`bowler` fields hold the frozen
accumulator snapshots taken at the end of `RealBall.run`. -/
structure Ball where
  index : Nat
  abs_index : Nat
  index_str : String
  batter : Batter
  non_striker : Batter
  bowler : Bowler
  value : String
  runs : Nat
  batting_runs : Nat
  boundary : Bool
  no_balls : Nat
  wides : Nat
  leg_byes : Nat
  byes : Nat
  penalty : Nat
  dismissals : List Wicket
  score : String := ""
  pship : String := ""
  bowling_extras : Nat
  fielding_extras : Nat
  extras : Nat
  bowling_runs : Int
  bowling_wickets : Nat
  wickets : Nat
deriving Repr, DecidableEq

/-- `Ball.__post_init__` packaged as a smart constructor: fill the six derived
fields from the raw counts and the dismissal list. -/
def mkBall (index abs_index : Nat) (index_str : String)
    (batter non_striker : Batter) (bowler : Bowler) (value : String)
    (runs batting_runs : Nat) (boundary : Bool)
    (no_balls wides leg_byes byes penalty : Nat) (dismissals : List Wicket)
    (score : String := "") (pship : String := "") : Ball :=
  let be := no_balls + wides
  let fe := leg_byes + byes + penalty
  { index := index, abs_index := abs_index, index_str := index_str,
    batter := batter, non_striker := non_striker, bowler := bowler,
    value := value, runs := runs, batting_runs := batting_runs, boundary := boundary,
    no_balls := no_balls, wides := wides, leg_byes := leg_byes, byes := byes,
    penalty := penalty, dismissals := dismissals, score := score, pship := pship,
    bowling_extras := be, fielding_extras := fe, extras := be + fe,
    bowling_runs := (batting_runs : Int) - (fe : Int),
    bowling_wickets := (dismissals.filter (fun w => BOWLING_WICKET_MODES.contains w.mode)).length,
    wickets := (dismissals.filter (fun w => !RETIRED_HURT.contains w.mode)).length }

/-- `RealBall._value`: render the compact symbolic outcome string of one
delivery from its raw counts and dismissals. -/
def ballValue (batting_runs no_balls wides leg_byes byes penalty : Nat)
    (dismissals : List Wicket) : String :=
  let v0 :=
    if wides ≠ 0 then
      let n := wides - 1
      s!"{n}wd"
    else if leg_byes ≠ 0 then s!"{leg_byes}lb"
    else if byes ≠ 0 then s!"{byes}b"
    else s!"{batting_runs}"
  let v1 :=
    if no_balls ≠ 0 then
      (if leg_byes ≠ 0 ∨ byes ≠ 0 then v0 ++ "+" else v0) ++ "nb"
    else v0
  let v2 :=
    match dismissals.head? with
    | some w =>
      if RETIRED_HURT.contains w.mode then v1
      else if w.mode = RUN_OUT then v1 ++ "+W"
      else if wides ≠ 0 then v1 ++ "/W"
      else "W"
    | none => v1
  if penalty ≠ 0 then v2 ++ s!"{penalty}p" else v2

/-- `str(ov.index + (abs_index + 1) * 0.1)`, the over-and-ball index string.
The source renders the sum of IEEE floats; for the in-range values that occur
(tenths digit 1-7) this gives the plain decimal modelled here, up to rare
float-repr artefacts which no claim reads. -/
def indexStr (overIdx absIdx : Nat) : String :=
  let k := absIdx + 1
  s!"{overIdx}.{k}"

/-! ## `over.Over` -/

/-- `over.Over`: ordered balls of the over, the distinct bowler accumulators
that bowled in it (the last entry is overwritten with a frozen snapshot after
every ball of `RealBall.run`), and the inning's score string when it began. -/
structure Over where
  index : Nat
  bowlers : List Bowler := []
  balls : List Ball := []
  start_score : String
deriving Repr, DecidableEq

/-- `Over.__abs__`: the number of legal balls (no wide or no-ball) in the
over. -/
def Over.legalBalls (ov : Over) : Nat :=
  (ov.balls.filter (fun b => b.bowling_extras = 0)).length

/-- `Over.maiden`: `True` exactly when the over has six legal balls, a single
bowler, and `sum(abs(b) - b.bowling_extras for b in self) == 0` (an integer
sum). -/
def Over.maiden (ov : Over) : Bool :=
  if ov.legalBalls = 6 ∧ ov.bowlers.length = 1 then
    decide ((ov.balls.map (fun b => (b.batting_runs : Int) - (b.bowling_extras : Int))).sum = 0)
  else false

/-- `Over.score`: the score string after the over's last ball, or the over's
starting score when no ball has been bowled. -/
def Over.scoreStr (ov : Over) : String :=
  match ov.balls.getLast? with
  | some b => b.score
  | none => ov.start_score

/-! ## Role accumulator updates -/

/-- `RealBatter.update`: apply one delivery to the striker's figures. -/
def Batter.update (bt : Batter) (b : Ball) : Batter :=
  let r := b.runs
  { bt with
    runs := bt.runs + r,
    balls := bt.balls + (if b.wides = 0 then 1 else 0),
    fours := bt.fours + (if r = 4 ∧ b.boundary then 1 else 0),
    sixes := bt.sixes + (if r = 6 ∧ b.boundary then 1 else 0) }

/-- Replace the last element of a list (Python `xs[-1] = v` / `xs[-1] += d`);
the empty list is returned unchanged (the source would raise `IndexError`,
a path no replay reaches because a bowler always owns at least one spell). -/
def updateLast {α : Type} (f : α → α) : List α → List α
  | [] => []
  | [x] => [f x]
  | x :: y :: xs => x :: updateLast f (y :: xs)

/-- `RealBowler.update`: apply one delivery to the bowler's figures, using the
maiden-eligibility of the over `ov` at the time of the call. -/
def Bowler.update (bw : Bowler) (b : Ball) (ov : Over) : Bowler :=
  let b_ : Nat := if b.bowling_extras = 0 then 1 else 0
  let m_ : Nat := if ov.maiden then 1 else 0
  let r_ : Int := b.bowling_runs
  let w_ : Nat := b.bowling_wickets
  { bw with
    balls := bw.balls + b_,
    maidens := bw.maidens + m_,
    runs := bw.runs + r_,
    wickets := bw.wickets + w_,
    extras := bw.extras + b.bowling_extras,
    spells := updateLast (fun s =>
      { oversSixths := s.oversSixths + (b_ : ℚ) / 6, maidens := s.maidens + (m_ : ℚ),
        runs := s.runs + (r_ : ℚ), wickets := s.wickets + (w_ : ℚ) }) bw.spells }

/-- `RealFielder.update`: credit a catch or stumping after a wicket (run-outs
are recorded nowhere: the source's branch is `...`). -/
def Fielder.update (f : Fielder) (mode : String) : Fielder :=
  if mode = CAUGHT ∨ mode = CAUGHT_AND_BOWLED then { f with catches := f.catches + 1 }
  else if mode = STUMPED then { f with stumpings := f.stumpings + 1 }
  else f

/-- `RealBatter.set_dismissal`: the scorecard text for a dismissal, or an error
for the raising paths of the source: `raise ValueError('unseen mode:', mode)`
for an unrecognised mode; `fielders[0]` on an empty fielder list raises
`IndexError`; and `'/'.join(fielders)` over `Fielder` objects raises
`TypeError` (the source joins the objects themselves, not strings). -/
def setDismissal (mode : String) (bowler : Bowler) (fielders : List Fielder) :
    Except String String :=
  let bw := bowler.short_name
  if mode = BOWLED then .ok s!"b {bw}"
  else if mode = LBW then .ok s!"lbw b {bw}"
  else if mode = CAUGHT then
    match fielders.head? with
    | some f =>
      let fs := f.str
      .ok s!"c {fs} b {bw}"
    | none => .error "IndexError: list index out of range"
  else if mode = CAUGHT_AND_BOWLED then .ok s!"c & b {bw}"
  else if mode = STUMPED then
    match fielders.head? with
    | some f =>
      let fs := f.str
      .ok s!"st {fs} b {bw}"
    | none => .error "IndexError: list index out of range"
  else if mode = RUN_OUT then
    if fielders.isEmpty then .ok "run out"
    else .error "TypeError: sequence item 0: expected str instance"
  else if RETIRED_HURT.contains mode then .ok "retired hurt"
  else if mode = HIT_WICKET then .ok s!"hit wicket b {bw}"
  else if mode = OBSTRUCTING_THE_FIELD then .ok "obstructing the field"
  else if mode = TIMED_OUT then .ok "timed out"
  else if mode = HANDLED_THE_BALL then .ok "handled the ball"
  else .error s!"unseen mode: {mode}"

/-! ## `inning.Inning` and the replay state -/

/-- `inning.Inning`: the serialisable inning object.  `pships` is the source's
`_pships`; `scoreVec` is the source's `_score` two-component vector (runs,
wickets); `title` and `scoreVec` are the two `__post_init__`-derived fields. -/
structure Inning where
  index : Nat
  batting_team : String
  fielding_team : String
  super_over : Bool
  overs : List Over := []
  batters : List Batter := []
  bowlers : List Bowler := []
  fielders : List Fielder := []
  fow : List String := []
  declared : Bool := false
  pships : List String := []
  title : String
  scoreVec : Nat × Nat := (0, 0)
deriving Repr, DecidableEq

/-- `Inning.score`: `'{}-{}{}'` with a `d` suffix for a declared inning. -/
def Inning.scoreStr (inn : Inning) : String :=
  let r := inn.scoreVec.1
  let w := inn.scoreVec.2
  s!"{r}-{w}" ++ (if inn.declared then "d" else "")

/-- `RealInning._pship`: the 3x2 partnership matrix (`np.zeros((3, 2))`):
rows are striker, non-striker, combined pair; columns are runs and balls. -/
structure PshipMat where
  r00 : Nat := 0
  r01 : Nat := 0
  r10 : Nat := 0
  r11 : Nat := 0
  r20 : Nat := 0
  r21 : Nat := 0
deriving Repr, DecidableEq

/-- The mutable replay state of a `RealInning`: the inning object plus the two
replay-only slots `_at_crease` (modelled by batter name — the source stores
aliases of the live accumulators held in `inning.batters`, and all of its
comparisons are name equality) and `_pship`. -/
structure InningSt where
  inning : Inning
  atCrease : List String := []
  pship : PshipMat := {}
deriving Repr, DecidableEq

/-- The parts of `RealMatch` that one inning's replay reads.  `batPlayer` and
`fieldPlayer` model the `mat.players[team][name]` roster lookups as total
functions (a roster miss raises `ValueError` in the source, a path no claim
exercises; substitute fielders are fetched from the external Cricinfo
registry, folded into `fieldPlayer` here). -/
structure MatchCtx where
  battingTeam : String
  fieldingTeam : String
  batPlayer : String → Player
  fieldPlayer : String → Player
  battingXI : List String
  fieldingXI : List String
  keeper : String

/-- The guarantee the source's roster lookup gives for free: looking a player
up by name returns a player bearing that name (`mat.players[team][name]`
matches via `Person.__eq__`, i.e. name equality).  Total-function rosters make
this a side condition. -/
def MatchCtx.wf (ctx : MatchCtx) : Prop :=
  (∀ n, (ctx.batPlayer n).name = n) ∧ (∀ n, (ctx.fieldPlayer n).name = n)

/-- Update the first element satisfying `p` (Python mutates the single live
object that every alias shares, so only the first name match can exist). -/
def updateFirst {α : Type} (p : α → Bool) (f : α → α) : List α → List α
  | [] => []
  | x :: xs => if p x then f x :: xs else x :: updateFirst p f xs

/-- Python `list.remove`: drop the first element satisfying `p` (the source
raises `ValueError` when none matches, a path no replay reaches). -/
def removeFirst {α : Type} (p : α → Bool) : List α → List α
  | [] => []
  | x :: xs => if p x then xs else x :: removeFirst p xs

/-- `RealInning.get_batter`: return the accumulator for `name`, reinstating a
"retired hurt" batter (dismissal reset to "not out", re-added to the crease)
or lazily creating a new one (an `absent` batter gets a `none` position and an
"absent hurt" dismissal and never joins the crease). -/
def getBatter (ctx : MatchCtx) (s : InningSt) (name : String) (absent : Bool) :
    Batter × InningSt :=
  match s.inning.batters.find? (fun b => b.name == name) with
  | some bt =>
    if bt.dismissal = "retired hurt" then
      let bt' := { bt with dismissal := "not out" }
      (bt', { s with
        inning := { s.inning with
          batters := updateFirst (fun b => b.name == name) (fun _ => bt') s.inning.batters }
        atCrease := s.atCrease ++ [name] })
    else (bt, s)
  | none =>
    let player := ctx.batPlayer name
    let bt0 := RealBatter.make player s.inning.batters.length (ctx.battingXI.indexOf name)
    let bt := if absent then { bt0 with position := none, dismissal := "absent hurt" } else bt0
    (bt, { s with
      inning := { s.inning with batters := s.inning.batters ++ [bt] }
      atCrease := if absent then s.atCrease else s.atCrease ++ [name] })

/-- `RealInning.get_bowler`: lookup-or-create for a bowling accumulator. -/
def getBowlerInn (ctx : MatchCtx) (s : InningSt) (name : String) : Bowler × InningSt :=
  match s.inning.bowlers.find? (fun b => b.name == name) with
  | some bw => (bw, s)
  | none =>
    let bw := RealBowler.make (ctx.fieldPlayer name)
    (bw, { s with inning := { s.inning with bowlers := s.inning.bowlers ++ [bw] } })

/-- `RealInning.get_fielder`: lookup-or-create for a fielding accumulator; the
keeper flag compares the player with `mat.keepers[fielding_team]` (name
equality against the keeper's name). -/
def getFielder (ctx : MatchCtx) (s : InningSt) (name : String) (substitute : Bool) :
    Fielder × InningSt :=
  match s.inning.fielders.find? (fun f => f.name == name) with
  | some f => (f, s)
  | none =>
    let p := ctx.fieldPlayer name
    let f := RealFielder.make p (p.name == ctx.keeper) substitute
    (f, { s with inning := { s.inning with fielders := s.inning.fielders ++ [f] } })

/-- The short name of the batter aliased at crease position `i` (the source
formats the `Batter` objects stored in `_at_crease`, whose `str` is the short
name; fewer than two batters at the crease raises `IndexError` in the source,
rendered as `""` here, a path no replay reaches). -/
def batterShortName (s : InningSt) (i : Nat) : String :=
  match s.atCrease.get? i with
  | some nm =>
    match s.inning.batters.find? (fun b => b.name == nm) with
    | some b => b.short_name
    | none => ""
  | none => ""

/-- `RealInning.pship_str`: `'{4}{8} ({5}) ({6} {0} ({1}), {7} {2} ({3}))'`
formatted over the flattened partnership matrix, the two batters at the
crease, and a star for an unbroken partnership. -/
def InningSt.pshipStr (s : InningSt) (wicket : Bool) : String :=
  let p := s.pship
  let star := if wicket then "" else "*"
  let n0 := batterShortName s 0
  let n1 := batterShortName s 1
  let a0 := p.r00
  let a1 := p.r01
  let b0 := p.r10
  let b1 := p.r11
  let t0 := p.r20
  let t1 := p.r21
  s!"{t0}{star} ({t1}) ({n0} {a0} ({a1}), {n1} {b0} ({b1}))"

/-- The new-spell test of `RealOver.get_bowler`:
`len(self.bowlers) > 0 or len(inn) < 3 or bowler != inn[-3].bowlers[-1]`,
phrased over the completed overs (the current over, already appended in the
source when this runs, contributes the `+ 1`); comparison is name equality,
and an out-of-range or empty `inn[-3].bowlers` (which would raise in the
source, a path no replay reaches) counts as a new spell. -/
def newSpellCond (curBowlers : List Bowler) (completed : List Over) (name : String) : Bool :=
  decide (curBowlers.length > 0) || decide (completed.length + 1 < 3) ||
    !(((completed.get? (completed.length - 2)).bind
        (fun ov => ov.bowlers.getLast?.map (fun bw => bw.name))) == some name)

/-- `RealOver.get_bowler`: return the over's current bowler and declare a new
spell unless they are resuming the unbroken spell of the over two prior
(`len(self.bowlers) > 0 or len(inn) < 3 or bowler != inn[-3].bowlers[-1]`).
`curBowlers` is the over under construction's bowler list; the current over is
already in `inn.overs` when the source evaluates `len(inn)` and `inn[-3]`, so
with `completed` not containing it, `len(inn) = completed.length + 1` and
`inn[-3] = completed[completed.length - 2]`. -/
def overGetBowler (ctx : MatchCtx) (s : InningSt) (curBowlers : List Bowler)
    (name : String) : Bowler × List Bowler × InningSt :=
  let r := getBowlerInn ctx s name
  let bw := r.1
  let s1 := r.2
  if curBowlers.any (fun b => b.name == name) then (bw, curBowlers, s1)
  else
    let bw' := { bw with spells := bw.spells ++ [{}] }
    let bw2 := if newSpellCond curBowlers s1.inning.overs name then bw' else bw
    (bw2, curBowlers ++ [bw2],
      { s1 with inning := { s1.inning with
        bowlers :=
          if newSpellCond curBowlers s1.inning.overs name then
            updateFirst (fun b => b.name == name) (fun _ => bw') s1.inning.bowlers
          else s1.inning.bowlers } })

/-- `RealInning.update_score_and_pship`: add the striker's runs and (for a
non-wide) a ball to the striker's partnership row, the team runs and the ball
to the combined row, and the team runs and wickets to the score vector.  (A
striker absent from the crease raises `ValueError` in the source, a path no
replay reaches; a striker at crease position 2 writes the combined row, as
`_pship[2]` does; positions past 2 raise `IndexError` in the source and leave
the rows unchanged here.) -/
def updateScoreAndPship (s : InningSt) (b : Ball) : InningSt :=
  let striker := s.atCrease.indexOf b.batter.name
  let wb := if b.wides = 0 then 1 else 0
  let p := s.pship
  let p1 :=
    if striker = 0 then { p with r00 := p.r00 + b.runs, r01 := p.r01 + wb }
    else if striker = 1 then { p with r10 := p.r10 + b.runs, r11 := p.r11 + wb }
    else if striker = 2 then { p with r20 := p.r20 + b.runs, r21 := p.r21 + wb }
    else p
  let p2 := { p1 with r20 := p1.r20 + b.batting_runs, r21 := p1.r21 + wb }
  { s with
    pship := p2
    inning := { s.inning with
      scoreVec := (s.inning.scoreVec.1 + b.batting_runs, s.inning.scoreVec.2 + b.wickets) } }

/-- One iteration of the `RealInning.update_dismissal` loop: resolve one
wicket entry of ball `b`, stopping with the error when `set_dismissal`
raises (statistics already written, including any fielders lazily created for
this wicket, stay written). -/
def dismissalStep (ctx : MatchCtx) (b : Ball) (s : InningSt) (w : Wicket) :
    InningSt × Option String :=
  let ro := getBatter ctx s w.batter false
  let out := ro.1
  let s1 := ro.2
  let rf := w.fielders.foldl (fun acc fe =>
      (acc.1 ++ [(getFielder ctx acc.2 fe.name fe.substitutePresent).1],
       (getFielder ctx acc.2 fe.name fe.substitutePresent).2)) (([] : List Fielder), s1)
  let fs := rf.1
  let s2 := rf.2
  match setDismissal w.mode b.bowler fs with
  | .error e => (s2, some e)
  | .ok text =>
    let s3 := { s2 with inning := { s2.inning with
      batters := updateFirst (fun bt => bt.name == w.batter)
        (fun bt => { bt with dismissal := text }) s2.inning.batters } }
    let s4 := fs.foldl (fun st f => { st with inning := { st.inning with
      fielders := updateFirst (fun g => g.name == f.name)
        (fun g => g.update w.mode) st.inning.fielders } }) s3
    let wicket := !RETIRED_HURT.contains w.mode
    let s5 := { s4 with inning := { s4.inning with
      pships := s4.inning.pships ++ [s4.pshipStr wicket] } }
    let s6 := { s5 with atCrease := removeFirst (fun nm => nm == w.batter) s5.atCrease }
    let s7 := { s6 with pship := {} }
    let sc := b.score
    let ln := out.long_name
    let ix := b.index_str
    let s8 := { s7 with inning := { s7.inning with
      fow := if wicket then s7.inning.fow ++ [s!"{sc} ({ln}, {ix} ov)"] else s7.inning.fow } }
    (s8, none)

/-- `RealInning.update_dismissal`: resolve each wicket of ball `b` in order,
propagating the first error with the state reached so far. -/
def updateDismissal (ctx : MatchCtx) (b : Ball) :
    InningSt → List Wicket → InningSt × Option String
  | s, [] => (s, none)
  | s, w :: ws =>
    let r := dismissalStep ctx b s w
    match r.2 with
    | some e => (r.1, some e)
    | none => updateDismissal ctx b r.1 ws

/-- `RealBall.__init__` followed by `RealBall.run`: construct the ball from
one delivery record (resolving the striker, non-striker and bowler, which may
lazily create or reinstate accumulators) and apply its statistical effects in
source order: striker, bowler (with the over's maiden-eligibility at the time
of the call), score and partnership, then dismissals; finally freeze the
updated accumulators into the ball and into the over's bowler list.  An error
from dismissal resolution is returned together with the state reached at the
raise (Python mutations made before an exception persist; the source also
skips the final snapshot lines then, but the ball's accumulator fields still
alias the live objects, whose values coincide with these snapshots). -/
def stepBall (ctx : MatchCtx) (s : InningSt) (cur : Over) (d : BallDict) :
    Over × InningSt × Option String :=
  let absIndex := cur.legalBalls
  let bowlerName := d.bowler
  let batting_runs := d.runs.total
  let no_balls := if d.extras.noballs.isSome then 1 else 0
  let wides := d.extras.wides
  let leg_byes := d.extras.legbyes
  let byes := d.extras.byes
  let penalty := d.extras.penalty
  let dismissals := d.wickets.map (fun w => RealWicket.make w bowlerName)
  let r1 := getBatter ctx s d.batter false
  let batter := r1.1
  let s1 := r1.2
  let r2 := getBatter ctx s1 d.non_striker false
  let non_striker := r2.1
  let s2 := r2.2
  let r3 := overGetBowler ctx s2 cur.bowlers bowlerName
  let bowler := r3.1
  let curBowlers := r3.2.1
  let s3 := r3.2.2
  let ball0 := mkBall cur.balls.length absIndex (indexStr cur.index absIndex)
    batter non_striker bowler
    (ballValue batting_runs no_balls wides leg_byes byes penalty dismissals)
    d.runs.batter batting_runs
    ((decide (batting_runs = 4 ∨ batting_runs = 6)) && !d.runs.nonBoundary)
    no_balls wides leg_byes byes penalty dismissals
  let s4 := { s3 with inning := { s3.inning with
    batters := updateFirst (fun bt => bt.name == d.batter)
      (fun bt => bt.update ball0) s3.inning.batters } }
  let ovForMaiden : Over := { cur with bowlers := curBowlers, balls := cur.balls ++ [ball0] }
  let s5 := { s4 with inning := { s4.inning with
    bowlers := updateFirst (fun bw => bw.name == bowlerName)
      (fun bw => bw.update ball0 ovForMaiden) s4.inning.bowlers } }
  let s6 := updateScoreAndPship s5 ball0
  let ball1 := { ball0 with
    score := s6.inning.scoreStr
    pship := s6.pshipStr (ball0.wickets ≠ 0) }
  let r7 := updateDismissal ctx ball1 s6 ball1.dismissals
  let s7 := r7.1
  let err := r7.2
  let batterSnap := (s7.inning.batters.find? (fun bt => bt.name == d.batter)).getD ball1.batter
  let nsSnap := (s7.inning.batters.find? (fun bt => bt.name == d.non_striker)).getD ball1.non_striker
  let bowlerSnap := (s7.inning.bowlers.find? (fun bw => bw.name == bowlerName)).getD ball1.bowler
  let ball2 := { ball1 with batter := batterSnap, non_striker := nsSnap, bowler := bowlerSnap }
  let cur' := { cur with
    bowlers := updateLast (fun _ => bowlerSnap) curBowlers
    balls := cur.balls ++ [ball2] }
  (cur', s7, err)

/-- The delivery loop of `RealOver.run`: each ball is appended to the over and
run; an exception stops the loop, leaving the state reached. -/
def runBalls (ctx : MatchCtx) : InningSt → Over → List BallDict →
    Over × InningSt × Option String
  | s, cur, [] => (cur, s, none)
  | s, cur, d :: ds =>
    let r := stepBall ctx s cur d
    match r.2.2 with
    | some e => (r.1, r.2.1, some e)
    | none => runBalls ctx r.2.1 r.1 ds

/-- One iteration of the over loop of `RealInning.run`: create the over
(`RealOver.__init__` takes `index = len(inn)` and `start_score = inn.score`
before the over is appended), run its deliveries, and leave the (possibly
partial) over in the inning's over list even when a delivery errored. -/
def runOver (ctx : MatchCtx) (s : InningSt) (ds : List BallDict) :
    InningSt × Option String :=
  let cur0 : Over := { index := s.inning.overs.length, start_score := s.inning.scoreStr }
  let r := runBalls ctx s cur0 ds
  let cur := r.1
  let s' := r.2.1
  ({ s' with inning := { s'.inning with overs := s'.inning.overs ++ [cur] } }, r.2.2)

/-- The over loop of `RealInning.run`, stopping at the first error. -/
def runOvers (ctx : MatchCtx) : InningSt → List (List BallDict) →
    InningSt × Option String
  | s, [] => (s, none)
  | s, ds :: rest =>
    let r := runOver ctx s ds
    match r.2 with
    | some e => (r.1, some e)
    | none => runOvers ctx r.1 rest

/-- The `innings` record feeding one `RealInning`: flags model key presence in
the raw JSON (`super_over`, `declared`, `penalty_runs.pre`/`.post`). -/
structure InningData where
  team : String
  super_over : Bool := false
  overs : List (List BallDict) := []
  declared : Bool := false
  absent_hurt : List String := []
  penalty_pre : Option Nat := none
  penalty_post : Option Nat := none
deriving Repr, DecidableEq

/-- `RealInning.__init__`: titled inning with zero score (`__post_init__` on an
empty over list), empty crease and partnership, and a `Fielder` instantiated
for every player of the fielding eleven (`_init_fielders`). -/
def initInning (ctx : MatchCtx) (index : Nat) (superOver : Bool) : InningSt :=
  let team := ctx.battingTeam
  let title :=
    if superOver then s!"{team} Super Over"
    else
      let ord := if index < 2 then "1st" else "2nd"
      s!"{team} {ord} Innings"
  let inn0 : Inning := { index := index
                         batting_team := ctx.battingTeam
                         fielding_team := ctx.fieldingTeam
                         super_over := superOver
                         title := title }
  ctx.fieldingXI.foldl (fun st nm => (getFielder ctx st nm false).2)
    { inning := inn0 }

/-- `RealInning.run`: apply any pre-innings penalty runs, replay the overs in
order, then (only when no delivery errored — an exception propagates out of
the loop in the source) set the declared flag, record absent-hurt batters, and
apply any post-innings penalty runs. -/
def runInning (ctx : MatchCtx) (index : Nat) (data : InningData) :
    InningSt × Option String :=
  let s0 := initInning ctx index data.super_over
  let s1 := { s0 with inning := { s0.inning with
    scoreVec := (s0.inning.scoreVec.1 + data.penalty_pre.getD 0, s0.inning.scoreVec.2) } }
  let r := runOvers ctx s1 data.overs
  match r.2 with
  | some e => (r.1, some e)
  | none =>
    let s2 := r.1
    let s3 := { s2 with inning := { s2.inning with
      declared := if data.declared then true else s2.inning.declared } }
    let s4 := data.absent_hurt.foldl (fun st nm => (getBatter ctx st nm true).2) s3
    let s5 := { s4 with inning := { s4.inning with
      scoreVec := (s4.inning.scoreVec.1 + data.penalty_post.getD 0, s4.inning.scoreVec.2) } }
    (s5, none)

/-! ## `match.Match` -/

/-- `Match.__post_init__`: `'{}: {} vs {} at {}, {}'` over event, the two
teams, venue and dates. -/
def matchDescription (event : String) (teams : List String) (venue dates : String) :
    String :=
  let t0 := teams.getD 0 ""
  let t1 := teams.getD 1 ""
  s!"{event}: {t0} vs {t1} at {venue}, {dates}"

/-- `match.Match`: match metadata plus the replayed innings.  `mtype` is the
dataclass's `type` field.  The `squads`/`players`/`keepers` slots hold plain
`Player`/name data that no scorecard reads and that the serialiser persists
verbatim; they are not modelled.  `description` is the single
`__post_init__`-derived field. -/
structure MatchG where
  index : Nat
  mtype : String
  format : String
  venue : String
  dates : String
  event : String
  teams : List String
  toss : String
  outcome : String
  innings : List Inning := []
  description : String
deriving Repr, DecidableEq

/-- The static per-match inputs of a replay (teams, rosters, elevens and
keepers), from which each inning's `MatchCtx` is assembled. -/
structure MatchInfo where
  teams : List String
  playerOf : String → String → Player
  xiOf : String → List String
  keeperOf : String → String
  index : Nat := 0
  mtype : String := ""
  format : String := ""
  venue : String := ""
  dates : String := ""
  event : String := ""
  toss : String := ""
  outcome : String := ""

/-- The view of the match one inning's replay reads: the fielding team is
`mat.teams[1 - mat.teams.index(batting_team)]`. -/
def mkCtx (mi : MatchInfo) (battingTeam : String) : MatchCtx :=
  let fieldingTeam :=
    if battingTeam == mi.teams.getD 0 "" then mi.teams.getD 1 "" else mi.teams.getD 0 ""
  { battingTeam := battingTeam
    fieldingTeam := fieldingTeam
    batPlayer := mi.playerOf battingTeam
    fieldPlayer := mi.playerOf fieldingTeam
    battingXI := mi.xiOf battingTeam
    fieldingXI := mi.xiOf fieldingTeam
    keeper := mi.keeperOf fieldingTeam }

/-- The innings loop of `RealMatch.run`: each inning is appended as created
(`self.innings.append(inn := RealInning(...)); inn.run(self)`), so an inning
that errors mid-replay stays in the list in its partial state while earlier,
completed innings are untouched. -/
def runInnings (mi : MatchInfo) : List Inning → List InningData →
    List Inning × Option String
  | acc, [] => (acc, none)
  | acc, d :: ds =>
    let r := runInning (mkCtx mi d.team) acc.length d
    match r.2 with
    | some e => (acc ++ [r.1.inning], some e)
    | none => runInnings mi (acc ++ [r.1.inning]) ds

/-- `RealMatch.__init__` plus `RealMatch.run`: build the match object and
replay its innings in order. -/
def runMatchG (mi : MatchInfo) (ds : List InningData) : MatchG × Option String :=
  let r := runInnings mi [] ds
  ({ index := mi.index
     mtype := mi.mtype
     format := mi.format
     venue := mi.venue
     dates := mi.dates
     event := mi.event
     teams := mi.teams
     toss := mi.toss
     outcome := mi.outcome
     innings := r.1
     description := matchDescription mi.event mi.teams mi.venue mi.dates }, r.2)

/-! ## Serialisation (`serialisation.py`)

`serialise_framework` emits, for every framework object, its base class's
`__slots__` minus the `POST_INIT` derived fields (`Ball`: the six
`__post_init__` fields; `Inning`: `title` and `_score`; `Match`:
`description`), and renders every `np.ndarray` as `array.round(1).tolist()`.
`deserialise_framework` feeds the stored fields back to the base-class
constructor, whose `__post_init__` recomputes the derived fields.  The
encoded forms are modelled as `Enc*` records holding exactly the persisted
fields. -/

/-- `np.ndarray.round(1)` applied to one spell component.  NumPy rounds
half-to-even; Mathlib's `round` (half-up) stands in — the two differ only on
exact half-tenths, and no claim or scorecard reads a spell's components. -/
def round1 (q : ℚ) : ℚ := ((round (q * 10) : ℤ) : ℚ) / 10

/-- Encoding of one spell array: components rounded to one decimal. -/
def encSpell (sp : Spell) : Spell :=
  { oversSixths := round1 sp.oversSixths, maidens := round1 sp.maidens,
    runs := round1 sp.runs, wickets := round1 sp.wickets }

/-- A `Bowler`'s every slot is persisted; only its `spells` arrays pass
through the lossy `ndarray` branch. -/
def encBowler (bw : Bowler) : Bowler :=
  { bw with spells := bw.spells.map encSpell }

/-- The persisted fields of a `Ball` (its slots minus the six `POST_INIT`
derived fields). -/
structure EncBall where
  index : Nat
  abs_index : Nat
  index_str : String
  batter : Batter
  non_striker : Batter
  bowler : Bowler
  value : String
  runs : Nat
  batting_runs : Nat
  boundary : Bool
  no_balls : Nat
  wides : Nat
  leg_byes : Nat
  byes : Nat
  penalty : Nat
  dismissals : List Wicket
  score : String
  pship : String
deriving Repr, DecidableEq

/-- Serialise one ball: keep the persisted fields, encoding the attached
bowler snapshot. -/
def encBall (b : Ball) : EncBall :=
  { index := b.index, abs_index := b.abs_index, index_str := b.index_str,
    batter := b.batter, non_striker := b.non_striker, bowler := encBowler b.bowler,
    value := b.value, runs := b.runs, batting_runs := b.batting_runs,
    boundary := b.boundary, no_balls := b.no_balls, wides := b.wides,
    leg_byes := b.leg_byes, byes := b.byes, penalty := b.penalty,
    dismissals := b.dismissals, score := b.score, pship := b.pship }

/-- `Ball(**d)`: rebuild a ball from its persisted fields; `__post_init__`
recomputes the six derived fields. -/
def decBall (e : EncBall) : Ball :=
  mkBall e.index e.abs_index e.index_str e.batter e.non_striker e.bowler e.value
    e.runs e.batting_runs e.boundary e.no_balls e.wides e.leg_byes e.byes e.penalty
    e.dismissals e.score e.pship

/-- The persisted fields of an `Over` (every slot is persisted). -/
structure EncOver where
  index : Nat
  bowlers : List Bowler
  balls : List EncBall
  start_score : String
deriving Repr, DecidableEq

/-- Serialise one over. -/
def encOver (ov : Over) : EncOver :=
  { index := ov.index, bowlers := ov.bowlers.map encBowler,
    balls := ov.balls.map encBall, start_score := ov.start_score }

/-- `Over(**d)`. -/
def decOver (e : EncOver) : Over :=
  { index := e.index, bowlers := e.bowlers, balls := e.balls.map decBall,
    start_score := e.start_score }

/-- The persisted fields of an `Inning` (its slots minus `title` and
`_score`). -/
structure EncInning where
  index : Nat
  batting_team : String
  fielding_team : String
  super_over : Bool
  overs : List EncOver
  batters : List Batter
  bowlers : List Bowler
  fielders : List Fielder
  fow : List String
  declared : Bool
  pships : List String
deriving Repr, DecidableEq

/-- Serialise one inning. -/
def encInning (inn : Inning) : EncInning :=
  { index := inn.index, batting_team := inn.batting_team,
    fielding_team := inn.fielding_team, super_over := inn.super_over,
    overs := inn.overs.map encOver, batters := inn.batters,
    bowlers := inn.bowlers.map encBowler, fielders := inn.fielders,
    fow := inn.fow, declared := inn.declared, pships := inn.pships }

/-- `Inning.__post_init__`'s title: `'{} Super Over'` or
`'{} {1st/2nd} Innings'`. -/
def inningTitle (team : String) (superOver : Bool) (index : Nat) : String :=
  if superOver then s!"{team} Super Over"
  else
    let ord := if index < 2 then "1st" else "2nd"
    s!"{team} {ord} Innings"

/-- `str.split('-')` over the character list. -/
def splitDash : List Char → List (List Char)
  | [] => [[]]
  | c :: cs =>
    let r := splitDash cs
    if c = '-' then [] :: r
    else (c :: r.headD []) :: r.tail

/-- `int(...)` of one score component: all-digit, nonempty. -/
def charsToNat? (cs : List Char) : Option Nat :=
  if cs.isEmpty then none
  else if cs.all Char.isDigit then
    some (cs.foldl (fun n c => n * 10 + (c.toNat - 48)) 0)
  else none

/-- The `int` parse of one score string component
(`np.array(score.replace('d', '').split('-'), dtype=int)`, the replace
dropping a declared marker); replayed score strings are always of the
well-formed `'runs-wickets'` shape this reads. -/
def parseScore (s : String) : Nat × Nat :=
  let cleaned := s.data.filter (fun c => c ≠ 'd')
  let parts := splitDash cleaned
  (((parts.get? 0).bind charsToNat?).getD 0,
   ((parts.get? 1).bind charsToNat?).getD 0)

/-- `Inning.__post_init__`'s `_score`: parsed from the last ball of the last
over, or zeros when either list is empty (the `except IndexError` branch). -/
def recomputeScoreVec (overs : List Over) : Nat × Nat :=
  match overs.getLast? with
  | none => (0, 0)
  | some ov =>
    match ov.balls.getLast? with
    | none => (0, 0)
    | some b => parseScore b.score

/-- `Inning(**d)`: rebuild an inning from its persisted fields, recomputing
`title` and `_score`. -/
def decInning (e : EncInning) : Inning :=
  let overs := e.overs.map decOver
  { index := e.index, batting_team := e.batting_team,
    fielding_team := e.fielding_team, super_over := e.super_over,
    overs := overs, batters := e.batters, bowlers := e.bowlers,
    fielders := e.fielders, fow := e.fow, declared := e.declared,
    pships := e.pships,
    title := inningTitle e.batting_team e.super_over e.index,
    scoreVec := recomputeScoreVec overs }

/-- The persisted fields of a `Match` (its slots minus `description`). -/
structure EncMatch where
  index : Nat
  mtype : String
  format : String
  venue : String
  dates : String
  event : String
  teams : List String
  toss : String
  outcome : String
  innings : List EncInning
deriving Repr, DecidableEq

/-- Serialise one match. -/
def encMatch (m : MatchG) : EncMatch :=
  { index := m.index, mtype := m.mtype, format := m.format, venue := m.venue,
    dates := m.dates, event := m.event, teams := m.teams, toss := m.toss,
    outcome := m.outcome, innings := m.innings.map encInning }

/-- `Match(**d)`: rebuild a match, recomputing `description`. -/
def decMatch (e : EncMatch) : MatchG :=
  { index := e.index, mtype := e.mtype, format := e.format, venue := e.venue,
    dates := e.dates, event := e.event, teams := e.teams, toss := e.toss,
    outcome := e.outcome, innings := e.innings.map decInning,
    description := matchDescription e.event e.teams e.venue e.dates }

/-! ## Scorecard views

`Inning.bat_card` reads each batter's long name, dismissal text, runs, balls,
fours, sixes and strike rate (a function of runs and balls), plus the score
vector, declared flag, and the last over's index and legal-ball count for the
totals row; `Inning.bowl_card` reads each bowler's long name, overs (a
function of `balls`), maidens, runs, wickets, extras and economy; the
ball-by-ball `Inning.scorecard` reads each over's ball outcome strings, its
bowlers' long names and its running score.  `inningScorecardView` collects
exactly these inputs, so two innings with equal views render byte-identical
scorecards. -/

/-- A bowler as the bowling scorecard reads them: every figure except the
`spells` arrays. -/
def Bowler.eraseSpells (bw : Bowler) : Bowler := { bw with spells := [] }

/-- The scorecard-relevant projection of one over. -/
def overView (ov : Over) : Nat × String × List String × List (String × String × Nat × Nat) :=
  (ov.index, ov.start_score, ov.bowlers.map (fun bw => bw.long_name),
   ov.balls.map (fun b => (b.value, b.score, b.bowling_extras, b.batting_runs)))

/-- The inputs of the three scorecards of one inning. -/
def inningScorecardView (inn : Inning) :
    List Batter × List Bowler × List (Nat × String × List String × List (String × String × Nat × Nat)) × (Nat × Nat) × Bool :=
  (inn.batters, inn.bowlers.map Bowler.eraseSpells, inn.overs.map overView,
   inn.scoreVec, inn.declared)

/-- The scorecard inputs of every inning of a match. -/
def matchScorecardView (m : MatchG) :=
  m.innings.map inningScorecardView

/-- The `__post_init__` consistency of a ball's six derived fields with its
raw fields — every ball built by `mkBall` (hence every replayed ball)
satisfies it. -/
def Ball.consistent (b : Ball) : Prop :=
  b.bowling_extras = b.no_balls + b.wides ∧
  b.fielding_extras = b.leg_byes + b.byes + b.penalty ∧
  b.extras = b.bowling_extras + b.fielding_extras ∧
  b.bowling_runs = (b.batting_runs : Int) - (b.fielding_extras : Int) ∧
  b.bowling_wickets = (b.dismissals.filter (fun w => BOWLING_WICKET_MODES.contains w.mode)).length ∧
  b.wickets = (b.dismissals.filter (fun w => !RETIRED_HURT.contains w.mode)).length

instance (b : Ball) : Decidable b.consistent := by
  unfold Ball.consistent
  exact inferInstance

/-! ## Concrete fixtures (used by witnesses and counterexamples) -/

/-- A roster entry whose three name forms coincide. -/
def simplePlayer (nm : String) : Player :=
  { name := nm, long_name := nm, short_name := nm, id := 0,
    batting_style := "right-hand bat", bowling_style := "right-arm medium", team := "" }

/-- Two-a-side fixture context: Alpha bat with `A`, `B`; Beta field with
bowlers `X`, `Y`, keeper `X`. -/
def wCtx : MatchCtx :=
  { battingTeam := "Alpha", fieldingTeam := "Beta",
    batPlayer := simplePlayer, fieldPlayer := simplePlayer,
    battingXI := ["A", "B"], fieldingXI := ["X", "Y"], keeper := "X" }

/-- A dot ball bowled by `bw` to `A`. -/
def wDot (bw : String) : BallDict :=
  { batter := "A", non_striker := "B", bowler := bw,
    runs := { batter := 0, total := 0, nonBoundary := false } }

/-- A single off the bat. -/
def wSingle : BallDict :=
  { batter := "A", non_striker := "B", bowler := "X",
    runs := { batter := 1, total := 1, nonBoundary := false } }

/-- `A` bowled by `X`. -/
def wBowled : BallDict :=
  { batter := "A", non_striker := "B", bowler := "X",
    runs := { batter := 0, total := 0, nonBoundary := false },
    wickets := [{ kind := "bowled", player_out := "A" }] }

/-- One-over inning with a single, a bowled dismissal, and penalty runs both
sides of the innings. -/
def wData : InningData :=
  { team := "Alpha", overs := [[wSingle, wBowled]],
    penalty_pre := some 5, penalty_post := some 3 }

/-! ## Helper lemmas: list surgery -/

theorem updateFirst_eq_self {α : Type} (p : α → Bool) (f : α → α) (l : List α)
    (h : ∀ a, p a = true → f a = a) : updateFirst p f l = l := by
  induction l with
  | nil => rfl
  | cons x xs ih =>
    unfold updateFirst
    by_cases hx : p x = true
    · simp [hx, h x hx]
    · simp [hx, ih]

theorem find?_updateFirst_same {α : Type} (p : α → Bool) (f : α → α) (l : List α)
    (h : ∀ a, p a = true → p (f a) = true) :
    (updateFirst p f l).find? p = (l.find? p).map f := by
  induction l with
  | nil => rfl
  | cons x xs ih =>
    unfold updateFirst
    by_cases hx : p x = true
    · simp [List.find?_cons, hx, h x hx]
    · simp [List.find?_cons, hx, ih]

theorem find?_updateFirst_other {α : Type} (p q : α → Bool) (f : α → α) (l : List α)
    (hpq : ∀ a, p a = true → q a = false ∧ q (f a) = false) :
    (updateFirst p f l).find? q = l.find? q := by
  induction l with
  | nil => rfl
  | cons x xs ih =>
    unfold updateFirst
    by_cases hx : p x = true
    · simp [List.find?_cons, hx, (hpq x hx).1, (hpq x hx).2]
    · simp [List.find?_cons, hx, ih]

theorem find?_append_one {α : Type} (p : α → Bool) (l : List α) (x : α) :
    (l ++ [x]).find? p = ((l.find? p).orElse (fun _ => if p x then some x else none)) := by
  induction l with
  | nil => cases h : p x <;> simp [List.find?_cons, h]
  | cons y ys ih =>
    by_cases hy : p y = true <;> simp [List.find?_cons, hy, ih]

/-! ## Helper lemmas: which state components each operation can touch -/

theorem getBatter_state (ctx : MatchCtx) (s : InningSt) (n : String) (a : Bool) :
    ∃ bs cr, (getBatter ctx s n a).2 =
      { s with inning := { s.inning with batters := bs }, atCrease := cr } := by
  unfold getBatter
  cases hf : s.inning.batters.find? (fun b => b.name == n) with
  | none => exact ⟨_, _, rfl⟩
  | some bt =>
    by_cases hd : bt.dismissal = "retired hurt"
    · simp only [hd, if_true]
      exact ⟨_, _, rfl⟩
    · simp only [hd, if_false]
      exact ⟨s.inning.batters, s.atCrease, rfl⟩

theorem getBowlerInn_state (ctx : MatchCtx) (s : InningSt) (n : String) :
    ∃ bl, (getBowlerInn ctx s n).2 =
      { s with inning := { s.inning with bowlers := bl } } := by
  unfold getBowlerInn
  cases hf : s.inning.bowlers.find? (fun b => b.name == n) with
  | none => exact ⟨_, rfl⟩
  | some bw => exact ⟨s.inning.bowlers, rfl⟩

theorem getFielder_state (ctx : MatchCtx) (s : InningSt) (n : String) (sub : Bool) :
    ∃ fl, (getFielder ctx s n sub).2 =
      { s with inning := { s.inning with fielders := fl } } := by
  unfold getFielder
  cases hf : s.inning.fielders.find? (fun f => f.name == n) with
  | none => exact ⟨_, rfl⟩
  | some f => exact ⟨s.inning.fielders, rfl⟩

theorem overGetBowler_state (ctx : MatchCtx) (s : InningSt) (cb : List Bowler) (n : String) :
    ∃ bl, (overGetBowler ctx s cb n).2.2 =
      { s with inning := { s.inning with bowlers := bl } } := by
  unfold overGetBowler
  dsimp only
  obtain ⟨bl1, h1⟩ := getBowlerInn_state ctx s n
  rw [h1]
  by_cases hm : cb.any (fun b => b.name == n) = true
  · simp only [hm, if_true]
    exact ⟨bl1, rfl⟩
  · simp only [hm, if_false]
    exact ⟨_, rfl⟩

theorem fielderCollect_state (ctx : MatchCtx) (fes : List FielderEntry) :
    ∀ acc : List Fielder × InningSt, ∃ fl,
      (fes.foldl (fun acc fe =>
        (acc.1 ++ [(getFielder ctx acc.2 fe.name fe.substitutePresent).1],
         (getFielder ctx acc.2 fe.name fe.substitutePresent).2)) acc).2 =
      { acc.2 with inning := { (acc.2).inning with fielders := fl } } := by
  induction fes with
  | nil => exact fun acc => ⟨(acc.2).inning.fielders, rfl⟩
  | cons fe fes ih =>
    intro acc
    dsimp only [List.foldl]
    obtain ⟨fl1, h1⟩ := getFielder_state ctx acc.2 fe.name fe.substitutePresent
    obtain ⟨fl2, h2⟩ := ih
      (acc.1 ++ [(getFielder ctx acc.2 fe.name fe.substitutePresent).1],
       (getFielder ctx acc.2 fe.name fe.substitutePresent).2)
    rw [h2]
    dsimp only
    rw [h1]
    exact ⟨fl2, rfl⟩

theorem fielderApply_state (mode : String) (fs : List Fielder) :
    ∀ st : InningSt, ∃ fl,
      (fs.foldl (fun st f => { st with inning := { st.inning with
        fielders := updateFirst (fun g => g.name == f.name)
          (fun g => g.update mode) st.inning.fielders } }) st) =
      { st with inning := { st.inning with fielders := fl } } := by
  induction fs with
  | nil => exact fun st => ⟨st.inning.fielders, rfl⟩
  | cons f fs ih =>
    intro st
    dsimp only [List.foldl]
    obtain ⟨fl2, h2⟩ := ih { st with inning := { st.inning with
      fielders := updateFirst (fun g => g.name == f.name)
        (fun g => g.update mode) st.inning.fielders } }
    rw [h2]
    exact ⟨fl2, rfl⟩

theorem dismissalStep_state (ctx : MatchCtx) (b : Ball) (s : InningSt) (w : Wicket) :
    ∃ bs fl ps fw cr pm, (dismissalStep ctx b s w).1 =
      { s with
        inning := { s.inning with batters := bs, fielders := fl, pships := ps, fow := fw },
        atCrease := cr, pship := pm } := by
  unfold dismissalStep
  dsimp only
  obtain ⟨bs1, cr1, h1⟩ := getBatter_state ctx s w.batter false
  rw [h1]
  obtain ⟨fl1, h2⟩ := fielderCollect_state ctx w.fielders
    ([], { s with inning := { s.inning with batters := bs1 }, atCrease := cr1 })
  rw [h2]
  dsimp only
  cases hsd : setDismissal w.mode b.bowler
      ((w.fielders.foldl (fun acc fe =>
        (acc.1 ++ [(getFielder ctx acc.2 fe.name fe.substitutePresent).1],
         (getFielder ctx acc.2 fe.name fe.substitutePresent).2))
        ([], { s with inning := { s.inning with batters := bs1 }, atCrease := cr1 })).1) with
  | error e => exact ⟨bs1, fl1, _, _, cr1, s.pship, rfl⟩
  | ok text =>
    obtain ⟨fl2, h3⟩ := fielderApply_state w.mode
      ((w.fielders.foldl (fun acc fe =>
        (acc.1 ++ [(getFielder ctx acc.2 fe.name fe.substitutePresent).1],
         (getFielder ctx acc.2 fe.name fe.substitutePresent).2))
        ([], { s with inning := { s.inning with batters := bs1 }, atCrease := cr1 })).1)
      { s with
        inning := { s.inning with
          batters := updateFirst (fun bt => bt.name == w.batter)
            (fun bt => { bt with dismissal := text }) bs1,
          fielders := fl1 },
        atCrease := cr1 }
    simp only [h3]
    exact ⟨_, fl2, _, _, _, _, rfl⟩

theorem updateDismissal_state (ctx : MatchCtx) (b : Ball) (ws : List Wicket) :
    ∀ s : InningSt, ∃ bs fl ps fw cr pm, (updateDismissal ctx b s ws).1 =
      { s with
        inning := { s.inning with batters := bs, fielders := fl, pships := ps, fow := fw },
        atCrease := cr, pship := pm } := by
  induction ws with
  | nil =>
    intro s
    exact ⟨s.inning.batters, s.inning.fielders, s.inning.pships, s.inning.fow,
      s.atCrease, s.pship, rfl⟩
  | cons w ws ih =>
    intro s
    unfold updateDismissal
    dsimp only
    obtain ⟨bs1, fl1, ps1, fw1, cr1, pm1, h1⟩ := dismissalStep_state ctx b s w
    cases he : (dismissalStep ctx b s w).2 with
    | some e => exact ⟨bs1, fl1, ps1, fw1, cr1, pm1, by rw [h1]⟩
    | none =>
      obtain ⟨bs2, fl2, ps2, fw2, cr2, pm2, h2⟩ := ih (dismissalStep ctx b s w).1
      rw [h2, h1]
      exact ⟨bs2, fl2, ps2, fw2, cr2, pm2, rfl⟩

theorem getBatter_scoreVec (ctx : MatchCtx) (s : InningSt) (n : String) (a : Bool) :
    (getBatter ctx s n a).2.inning.scoreVec = s.inning.scoreVec := by
  obtain ⟨bs, cr, h⟩ := getBatter_state ctx s n a
  rw [h]

theorem getBatter_fow (ctx : MatchCtx) (s : InningSt) (n : String) (a : Bool) :
    (getBatter ctx s n a).2.inning.fow = s.inning.fow := by
  obtain ⟨bs, cr, h⟩ := getBatter_state ctx s n a
  rw [h]

theorem getBatter_pships (ctx : MatchCtx) (s : InningSt) (n : String) (a : Bool) :
    (getBatter ctx s n a).2.inning.pships = s.inning.pships := by
  obtain ⟨bs, cr, h⟩ := getBatter_state ctx s n a
  rw [h]

theorem getBatter_pship (ctx : MatchCtx) (s : InningSt) (n : String) (a : Bool) :
    (getBatter ctx s n a).2.pship = s.pship := by
  obtain ⟨bs, cr, h⟩ := getBatter_state ctx s n a
  rw [h]

theorem getBatter_bowlers (ctx : MatchCtx) (s : InningSt) (n : String) (a : Bool) :
    (getBatter ctx s n a).2.inning.bowlers = s.inning.bowlers := by
  obtain ⟨bs, cr, h⟩ := getBatter_state ctx s n a
  rw [h]

theorem getBatter_overs (ctx : MatchCtx) (s : InningSt) (n : String) (a : Bool) :
    (getBatter ctx s n a).2.inning.overs = s.inning.overs := by
  obtain ⟨bs, cr, h⟩ := getBatter_state ctx s n a
  rw [h]

theorem getBatter_declared (ctx : MatchCtx) (s : InningSt) (n : String) (a : Bool) :
    (getBatter ctx s n a).2.inning.declared = s.inning.declared := by
  obtain ⟨bs, cr, h⟩ := getBatter_state ctx s n a
  rw [h]

theorem overGetBowler_scoreVec (ctx : MatchCtx) (s : InningSt) (cb : List Bowler) (n : String) :
    (overGetBowler ctx s cb n).2.2.inning.scoreVec = s.inning.scoreVec := by
  obtain ⟨bl, h⟩ := overGetBowler_state ctx s cb n
  rw [h]

theorem overGetBowler_fow (ctx : MatchCtx) (s : InningSt) (cb : List Bowler) (n : String) :
    (overGetBowler ctx s cb n).2.2.inning.fow = s.inning.fow := by
  obtain ⟨bl, h⟩ := overGetBowler_state ctx s cb n
  rw [h]

theorem overGetBowler_pships (ctx : MatchCtx) (s : InningSt) (cb : List Bowler) (n : String) :
    (overGetBowler ctx s cb n).2.2.inning.pships = s.inning.pships := by
  obtain ⟨bl, h⟩ := overGetBowler_state ctx s cb n
  rw [h]

theorem overGetBowler_pship (ctx : MatchCtx) (s : InningSt) (cb : List Bowler) (n : String) :
    (overGetBowler ctx s cb n).2.2.pship = s.pship := by
  obtain ⟨bl, h⟩ := overGetBowler_state ctx s cb n
  rw [h]

theorem overGetBowler_batters (ctx : MatchCtx) (s : InningSt) (cb : List Bowler) (n : String) :
    (overGetBowler ctx s cb n).2.2.inning.batters = s.inning.batters := by
  obtain ⟨bl, h⟩ := overGetBowler_state ctx s cb n
  rw [h]

theorem overGetBowler_atCrease (ctx : MatchCtx) (s : InningSt) (cb : List Bowler) (n : String) :
    (overGetBowler ctx s cb n).2.2.atCrease = s.atCrease := by
  obtain ⟨bl, h⟩ := overGetBowler_state ctx s cb n
  rw [h]

theorem overGetBowler_overs (ctx : MatchCtx) (s : InningSt) (cb : List Bowler) (n : String) :
    (overGetBowler ctx s cb n).2.2.inning.overs = s.inning.overs := by
  obtain ⟨bl, h⟩ := overGetBowler_state ctx s cb n
  rw [h]

theorem overGetBowler_declared (ctx : MatchCtx) (s : InningSt) (cb : List Bowler) (n : String) :
    (overGetBowler ctx s cb n).2.2.inning.declared = s.inning.declared := by
  obtain ⟨bl, h⟩ := overGetBowler_state ctx s cb n
  rw [h]

theorem updateDismissal_scoreVec (ctx : MatchCtx) (b : Ball) (ws : List Wicket) (s : InningSt) :
    (updateDismissal ctx b s ws).1.inning.scoreVec = s.inning.scoreVec := by
  obtain ⟨bs, fl, ps, fw, cr, pm, h⟩ := updateDismissal_state ctx b ws s
  rw [h]

theorem updateDismissal_overs (ctx : MatchCtx) (b : Ball) (ws : List Wicket) (s : InningSt) :
    (updateDismissal ctx b s ws).1.inning.overs = s.inning.overs := by
  obtain ⟨bs, fl, ps, fw, cr, pm, h⟩ := updateDismissal_state ctx b ws s
  rw [h]

theorem updateDismissal_declared (ctx : MatchCtx) (b : Ball) (ws : List Wicket) (s : InningSt) :
    (updateDismissal ctx b s ws).1.inning.declared = s.inning.declared := by
  obtain ⟨bs, fl, ps, fw, cr, pm, h⟩ := updateDismissal_state ctx b ws s
  rw [h]

/-- The score effect of one delivery, whether or not it errors: exactly the
ball's total batting-team runs and its count of non-retirement dismissals are
added (the score is updated before dismissal resolution can raise). -/
theorem stepBall_scoreVec (ctx : MatchCtx) (s : InningSt) (cur : Over) (d : BallDict) :
    (stepBall ctx s cur d).2.1.inning.scoreVec =
      (s.inning.scoreVec.1 + d.runs.total,
       s.inning.scoreVec.2 +
         (d.wickets.filter (fun w => !RETIRED_HURT.contains w.kind)).length) := by
  unfold stepBall
  dsimp only
  simp only [updateDismissal_scoreVec, updateScoreAndPship, overGetBowler_scoreVec,
    getBatter_scoreVec, mkBall]
  rw [List.filter_map]
  simp [RealWicket.make, Function.comp_def]

theorem getFielder_scoreVec (ctx : MatchCtx) (s : InningSt) (n : String) (sub : Bool) :
    (getFielder ctx s n sub).2.inning.scoreVec = s.inning.scoreVec := by
  obtain ⟨fl, h⟩ := getFielder_state ctx s n sub
  rw [h]

theorem fielderInitFold_scoreVec (ctx : MatchCtx) (l : List String) :
    ∀ st : InningSt,
      (l.foldl (fun st nm => (getFielder ctx st nm false).2) st).inning.scoreVec =
        st.inning.scoreVec := by
  induction l with
  | nil => intro st; rfl
  | cons nm l ih =>
    intro st
    dsimp only [List.foldl]
    rw [ih, getFielder_scoreVec]

theorem absentFold_scoreVec (ctx : MatchCtx) (l : List String) :
    ∀ st : InningSt,
      (l.foldl (fun st nm => (getBatter ctx st nm true).2) st).inning.scoreVec =
        st.inning.scoreVec := by
  induction l with
  | nil => intro st; rfl
  | cons nm l ih =>
    intro st
    dsimp only [List.foldl]
    rw [ih, getBatter_scoreVec]

/-- The per-ball total-runs contribution of a list of delivery records. -/
def ballRunsSum (ds : List BallDict) : Nat :=
  (ds.map (fun d => d.runs.total)).sum

/-- The per-ball non-retirement dismissal count of a list of delivery
records. -/
def ballWktsSum (ds : List BallDict) : Nat :=
  (ds.map (fun d =>
    (d.wickets.filter (fun w => !RETIRED_HURT.contains w.kind)).length)).sum

theorem runBalls_scoreVec (ctx : MatchCtx) (ds : List BallDict) :
    ∀ (s : InningSt) (cur : Over), (runBalls ctx s cur ds).2.2 = none →
      (runBalls ctx s cur ds).2.1.inning.scoreVec =
        (s.inning.scoreVec.1 + ballRunsSum ds, s.inning.scoreVec.2 + ballWktsSum ds) := by
  induction ds with
  | nil =>
    intro s cur _
    simp [runBalls, ballRunsSum, ballWktsSum]
  | cons d ds ih =>
    intro s cur h
    unfold runBalls at h ⊢
    dsimp only at h ⊢
    cases he : (stepBall ctx s cur d).2.2 with
    | some e =>
      rw [he] at h
      simp at h
    | none =>
      rw [he] at h
      dsimp only at h ⊢
      rw [ih _ _ h, stepBall_scoreVec]
      simp [ballRunsSum, ballWktsSum, add_assoc]

theorem runOver_scoreVec (ctx : MatchCtx) (s : InningSt) (ds : List BallDict)
    (h : (runOver ctx s ds).2 = none) :
    (runOver ctx s ds).1.inning.scoreVec =
      (s.inning.scoreVec.1 + ballRunsSum ds, s.inning.scoreVec.2 + ballWktsSum ds) := by
  unfold runOver at h ⊢
  dsimp only at h ⊢
  exact runBalls_scoreVec ctx ds s _ h

theorem runOvers_scoreVec (ctx : MatchCtx) (oss : List (List BallDict)) :
    ∀ s : InningSt, (runOvers ctx s oss).2 = none →
      (runOvers ctx s oss).1.inning.scoreVec =
        (s.inning.scoreVec.1 + ballRunsSum oss.flatten,
         s.inning.scoreVec.2 + ballWktsSum oss.flatten) := by
  induction oss with
  | nil =>
    intro s _
    simp [runOvers, ballRunsSum, ballWktsSum]
  | cons ds oss ih =>
    intro s h
    unfold runOvers at h ⊢
    dsimp only at h ⊢
    cases he : (runOver ctx s ds).2 with
    | some e =>
      rw [he] at h
      simp at h
    | none =>
      rw [he] at h
      dsimp only at h ⊢
      rw [ih _ h, runOver_scoreVec ctx s ds he]
      simp [ballRunsSum, ballWktsSum, add_assoc]

theorem initInning_scoreVec (ctx : MatchCtx) (idx : Nat) (so : Bool) :
    (initInning ctx idx so).inning.scoreVec = (0, 0) := by
  unfold initInning
  dsimp only
  rw [fielderInitFold_scoreVec]

theorem not_mem_removeFirst (l : List String) (a : String) (h : l.count a ≤ 1) :
    a ∉ removeFirst (fun x => x == a) l := by
  induction l with
  | nil => simp [removeFirst]
  | cons x xs ih =>
    unfold removeFirst
    by_cases hx : x = a
    · have hxb : (x == a) = true := beq_iff_eq.mpr hx
      simp only [hxb, if_true]
      rw [hx, List.count_cons_self] at h
      intro hmem
      have hp : 0 < xs.count a := List.count_pos_iff.mpr hmem
      omega
    · have hxb : (x == a) = false := beq_eq_false_iff_ne.mpr hx
      simp only [hxb, Bool.false_eq_true, if_false]
      rw [List.count_cons_of_ne (fun hh => hx hh.symm)] at h
      intro hmem
      rcases List.mem_cons.mp hmem with h1 | h1
      · exact hx h1.symm
      · exact ih h h1

/-! ## Helper lemmas: tracking one accumulator entry through the replay -/

/-- Fields of an already-present batting accumulator other than the dismissal
text survive a `get_batter` call (lookup either returns it untouched, resets
only its dismissal, or appends a fresh entry after it). -/
theorem getBatter_find_batter (ctx : MatchCtx) (s : InningSt) (n : String) (a : Bool)
    (q : String) (bt : Batter)
    (h : s.inning.batters.find? (fun b => b.name == q) = some bt) :
    ∃ bt', (getBatter ctx s n a).2.inning.batters.find? (fun b => b.name == q) = some bt' ∧
      bt'.name = bt.name ∧ bt'.balls = bt.balls ∧ bt'.runs = bt.runs ∧
      bt'.fours = bt.fours ∧ bt'.sixes = bt.sixes := by
  unfold getBatter
  cases hf : s.inning.batters.find? (fun b => b.name == n) with
  | none =>
    rw [find?_append_one, h]
    exact ⟨bt, rfl, rfl, rfl, rfl, rfl, rfl⟩
  | some btn =>
    have hbn : (btn.name == n) = true := by simpa using List.find?_some hf
    by_cases hd : btn.dismissal = "retired hurt"
    · simp only [hd, if_true]
      by_cases hnq : n = q
      · subst hnq
        have hbt : btn = bt := by
          rw [h] at hf
          exact (Option.some.inj hf).symm
        subst hbt
        rw [find?_updateFirst_same (fun b => b.name == n)
          (fun _ => { btn with dismissal := "not out" })
          s.inning.batters (fun x _ => hbn), h]
        exact ⟨_, rfl, rfl, rfl, rfl, rfl, rfl⟩
      · rw [find?_updateFirst_other, h]
        · exact ⟨bt, rfl, rfl, rfl, rfl, rfl, rfl⟩
        · intro x hx
          have hxn : x.name = n := by simpa using hx
          have hbnn : btn.name = n := by simpa using hbn
          constructor
          · exact beq_eq_false_iff_ne.mpr (by rw [hxn]; exact hnq)
          · exact beq_eq_false_iff_ne.mpr (by show ¬ btn.name = q; rw [hbnn]; exact hnq)
    · simp only [hd, if_false]
      exact ⟨bt, h, rfl, rfl, rfl, rfl, rfl⟩

/-- An already-present bowling accumulator survives `RealInning.get_bowler`
untouched. -/
theorem getBowlerInn_find_bowler (ctx : MatchCtx) (s : InningSt) (n : String)
    (q : String) (bw : Bowler)
    (h : s.inning.bowlers.find? (fun b => b.name == q) = some bw) :
    (getBowlerInn ctx s n).2.inning.bowlers.find? (fun b => b.name == q) = some bw := by
  unfold getBowlerInn
  cases hf : s.inning.bowlers.find? (fun b => b.name == n) with
  | some bwn => exact h
  | none =>
    rw [find?_append_one, h]
    rfl

/-- Every figure of an already-present bowling accumulator except its spell
list survives `RealOver.get_bowler` (which can only append a fresh spell). -/
theorem overGetBowler_find_bowler (ctx : MatchCtx) (s : InningSt) (cb : List Bowler)
    (n : String) (hwf : ctx.wf) (q : String) (bw : Bowler)
    (h : s.inning.bowlers.find? (fun b => b.name == q) = some bw) :
    ∃ bw', (overGetBowler ctx s cb n).2.2.inning.bowlers.find? (fun b => b.name == q) = some bw' ∧
      bw'.name = bw.name ∧ bw'.balls = bw.balls ∧ bw'.maidens = bw.maidens ∧
      bw'.runs = bw.runs ∧ bw'.wickets = bw.wickets ∧ bw'.extras = bw.extras := by
  have h1 := getBowlerInn_find_bowler ctx s n q bw h
  unfold overGetBowler
  dsimp only
  by_cases hm : (cb.any fun b => b.name == n) = true
  · simp only [hm, if_true]
    exact ⟨bw, h1, rfl, rfl, rfl, rfl, rfl, rfl⟩
  · simp only [hm, Bool.false_eq_true, if_false]
    by_cases hns : newSpellCond cb (getBowlerInn ctx s n).2.inning.overs n = true
    · simp only [hns, if_true]
      by_cases hq : n = q
      · subst hq
        have hbw1 : (getBowlerInn ctx s n).1 = bw := by
          unfold getBowlerInn
          cases hf : s.inning.bowlers.find? (fun b => b.name == n) with
          | some bwn =>
            rw [h] at hf
            dsimp only
            exact (Option.some.inj hf).symm
          | none =>
            rw [h] at hf
            cases hf
        rw [hbw1]
        have hbn : (bw.name == n) = true := by simpa using List.find?_some h
        rw [find?_updateFirst_same (fun b => b.name == n)
          (fun _ => { bw with spells := bw.spells ++ [{}] })
          (getBowlerInn ctx s n).2.inning.bowlers (fun x _ => hbn), h1]
        exact ⟨_, rfl, rfl, rfl, rfl, rfl, rfl, rfl⟩
      · have hname : ((getBowlerInn ctx s n).1.name == n) = true := by
          unfold getBowlerInn
          cases hf : s.inning.bowlers.find? (fun b => b.name == n) with
          | some bwn =>
            have hp := List.find?_some hf
            simpa using hp
          | none =>
            dsimp only
            unfold RealBowler.make
            exact beq_iff_eq.mpr (hwf.2 n)
        have hnn : (getBowlerInn ctx s n).1.name = n := by simpa using hname
        rw [find?_updateFirst_other, h1]
        · exact ⟨bw, rfl, rfl, rfl, rfl, rfl, rfl, rfl⟩
        · intro x hx
          have hxn : x.name = n := by simpa using hx
          constructor
          · exact beq_eq_false_iff_ne.mpr (by rw [hxn]; exact hq)
          · exact beq_eq_false_iff_ne.mpr
              (by show ¬ ((getBowlerInn ctx s n).1.name = q); rw [hnn]; exact hq)
    · simp only [hns, Bool.false_eq_true, if_false]
      exact ⟨bw, h1, rfl, rfl, rfl, rfl, rfl, rfl⟩

/-- Projection of the first `p`-match after an `updateFirst`, for projections
the update preserves. -/
theorem find?_updateFirst_map {α β : Type} (p : α → Bool) (f : α → α) (l : List α)
    (g : α → β) (a0 : α) (hp : ∀ a, p a = true → p (f a) = true)
    (hg : ∀ a, g (f a) = g a) (h : l.find? p = some a0) :
    ((updateFirst p f l).find? p).map g = some (g a0) := by
  rw [find?_updateFirst_same p f l hp, h]
  simp [hg]

/-- A batter already on the list whose dismissal is not "retired hurt" is
returned with the state untouched. -/
theorem getBatter_found_notRetired (ctx : MatchCtx) (s : InningSt) (n : String) (a : Bool)
    (bt : Batter) (h : s.inning.batters.find? (fun b => b.name == n) = some bt)
    (hd : bt.dismissal ≠ "retired hurt") : getBatter ctx s n a = (bt, s) := by
  unfold getBatter
  rw [h]
  dsimp only
  rw [if_neg hd]

theorem fielderCollect_fow (ctx : MatchCtx) (fes : List FielderEntry)
    (acc : List Fielder × InningSt) :
    (fes.foldl (fun acc fe =>
      (acc.1 ++ [(getFielder ctx acc.2 fe.name fe.substitutePresent).1],
       (getFielder ctx acc.2 fe.name fe.substitutePresent).2)) acc).2.inning.fow =
    (acc.2).inning.fow := by
  obtain ⟨fl, h⟩ := fielderCollect_state ctx fes acc
  rw [h]

theorem fielderCollect_pships (ctx : MatchCtx) (fes : List FielderEntry)
    (acc : List Fielder × InningSt) :
    (fes.foldl (fun acc fe =>
      (acc.1 ++ [(getFielder ctx acc.2 fe.name fe.substitutePresent).1],
       (getFielder ctx acc.2 fe.name fe.substitutePresent).2)) acc).2.inning.pships =
    (acc.2).inning.pships := by
  obtain ⟨fl, h⟩ := fielderCollect_state ctx fes acc
  rw [h]

theorem fielderCollect_pship (ctx : MatchCtx) (fes : List FielderEntry)
    (acc : List Fielder × InningSt) :
    (fes.foldl (fun acc fe =>
      (acc.1 ++ [(getFielder ctx acc.2 fe.name fe.substitutePresent).1],
       (getFielder ctx acc.2 fe.name fe.substitutePresent).2)) acc).2.pship =
    (acc.2).pship := by
  obtain ⟨fl, h⟩ := fielderCollect_state ctx fes acc
  rw [h]

theorem fielderCollect_atCrease (ctx : MatchCtx) (fes : List FielderEntry)
    (acc : List Fielder × InningSt) :
    (fes.foldl (fun acc fe =>
      (acc.1 ++ [(getFielder ctx acc.2 fe.name fe.substitutePresent).1],
       (getFielder ctx acc.2 fe.name fe.substitutePresent).2)) acc).2.atCrease =
    (acc.2).atCrease := by
  obtain ⟨fl, h⟩ := fielderCollect_state ctx fes acc
  rw [h]

theorem fielderCollect_batters (ctx : MatchCtx) (fes : List FielderEntry)
    (acc : List Fielder × InningSt) :
    (fes.foldl (fun acc fe =>
      (acc.1 ++ [(getFielder ctx acc.2 fe.name fe.substitutePresent).1],
       (getFielder ctx acc.2 fe.name fe.substitutePresent).2)) acc).2.inning.batters =
    (acc.2).inning.batters := by
  obtain ⟨fl, h⟩ := fielderCollect_state ctx fes acc
  rw [h]

theorem fielderCollect_scoreVec (ctx : MatchCtx) (fes : List FielderEntry)
    (acc : List Fielder × InningSt) :
    (fes.foldl (fun acc fe =>
      (acc.1 ++ [(getFielder ctx acc.2 fe.name fe.substitutePresent).1],
       (getFielder ctx acc.2 fe.name fe.substitutePresent).2)) acc).2.inning.scoreVec =
    (acc.2).inning.scoreVec := by
  obtain ⟨fl, h⟩ := fielderCollect_state ctx fes acc
  rw [h]

theorem fielderApply_fow (mode : String) (fs : List Fielder) (st : InningSt) :
    (fs.foldl (fun st f => { st with inning := { st.inning with
      fielders := updateFirst (fun g => g.name == f.name)
        (fun g => g.update mode) st.inning.fielders } }) st).inning.fow = st.inning.fow := by
  obtain ⟨fl, h⟩ := fielderApply_state mode fs st
  rw [h]

theorem fielderApply_pships (mode : String) (fs : List Fielder) (st : InningSt) :
    (fs.foldl (fun st f => { st with inning := { st.inning with
      fielders := updateFirst (fun g => g.name == f.name)
        (fun g => g.update mode) st.inning.fielders } }) st).inning.pships =
    st.inning.pships := by
  obtain ⟨fl, h⟩ := fielderApply_state mode fs st
  rw [h]

theorem fielderApply_pship (mode : String) (fs : List Fielder) (st : InningSt) :
    (fs.foldl (fun st f => { st with inning := { st.inning with
      fielders := updateFirst (fun g => g.name == f.name)
        (fun g => g.update mode) st.inning.fielders } }) st).pship = st.pship := by
  obtain ⟨fl, h⟩ := fielderApply_state mode fs st
  rw [h]

theorem fielderApply_atCrease (mode : String) (fs : List Fielder) (st : InningSt) :
    (fs.foldl (fun st f => { st with inning := { st.inning with
      fielders := updateFirst (fun g => g.name == f.name)
        (fun g => g.update mode) st.inning.fielders } }) st).atCrease = st.atCrease := by
  obtain ⟨fl, h⟩ := fielderApply_state mode fs st
  rw [h]

theorem fielderApply_batters (mode : String) (fs : List Fielder) (st : InningSt) :
    (fs.foldl (fun st f => { st with inning := { st.inning with
      fielders := updateFirst (fun g => g.name == f.name)
        (fun g => g.update mode) st.inning.fielders } }) st).inning.batters =
    st.inning.batters := by
  obtain ⟨fl, h⟩ := fielderApply_state mode fs st
  rw [h]

theorem fielderApply_scoreVec (mode : String) (fs : List Fielder) (st : InningSt) :
    (fs.foldl (fun st f => { st with inning := { st.inning with
      fielders := updateFirst (fun g => g.name == f.name)
        (fun g => g.update mode) st.inning.fielders } }) st).inning.scoreVec =
    st.inning.scoreVec := by
  obtain ⟨fl, h⟩ := fielderApply_state mode fs st
  rw [h]

/-- `set_dismissal` on a retirement mode always returns the text
`"retired hurt"` (it inspects neither the bowler nor the fielders). -/
theorem setDismissal_retired (bw : Bowler) (fs : List Fielder) :
    setDismissal "retired hurt" bw fs = .ok "retired hurt" := by
  rfl

/-- The effect of resolving a single "retired hurt" wicket entry on an
in-range state: no error, no fall-of-wickets entry, one closing partnership
string, a zeroed partnership matrix, the batter removed from the crease, and
the batter's dismissal text set to "retired hurt"; the score vector is
untouched. -/
theorem dismissalStep_retired (ctx : MatchCtx) (b : Ball) (s : InningSt) (w : Wicket)
    (hmode : w.mode = "retired hurt")
    (bt : Batter) (hbt : s.inning.batters.find? (fun x => x.name == w.batter) = some bt)
    (hbtd : bt.dismissal = "not out") :
    (dismissalStep ctx b s w).2 = none ∧
    (dismissalStep ctx b s w).1.inning.fow = s.inning.fow ∧
    (∃ ps, (dismissalStep ctx b s w).1.inning.pships = s.inning.pships ++ [ps]) ∧
    (dismissalStep ctx b s w).1.pship = {} ∧
    (dismissalStep ctx b s w).1.atCrease = removeFirst (fun nm => nm == w.batter) s.atCrease ∧
    ((dismissalStep ctx b s w).1.inning.batters.find? (fun x => x.name == w.batter)).map
      (fun x => x.dismissal) = some "retired hurt" ∧
    (dismissalStep ctx b s w).1.inning.scoreVec = s.inning.scoreVec := by
  have hgb : getBatter ctx s w.batter false = (bt, s) :=
    getBatter_found_notRetired ctx s w.batter false bt hbt (by rw [hbtd]; decide)
  have hbn : (bt.name == w.batter) = true := by simpa using List.find?_some hbt
  unfold dismissalStep
  dsimp only
  rw [hgb]
  dsimp only
  rw [hmode, setDismissal_retired]
  dsimp only
  have hc : (!RETIRED_HURT.contains "retired hurt") = false := by decide
  refine ⟨rfl, ?_, ?_, rfl, ?_, ?_, ?_⟩
  · simp only [hc, Bool.false_eq_true, if_false, fielderApply_fow, fielderCollect_fow]
  · simp only [fielderApply_pships, fielderCollect_pships]
    exact ⟨_, rfl⟩
  · simp only [fielderApply_atCrease, fielderCollect_atCrease]
  · simp only [fielderApply_batters, fielderCollect_batters]
    rw [find?_updateFirst_same (fun x => x.name == w.batter)
      (fun x => { x with dismissal := "retired hurt" })
      s.inning.batters (fun x hx => hx), hbt]
    rfl
  · simp only [fielderApply_scoreVec, fielderCollect_scoreVec]

/-- `update_dismissal` on a single "retired hurt" wicket entry. -/
theorem updateDismissal_single_retired (ctx : MatchCtx) (b : Ball) (w' : Wicket)
    (S : InningSt) (hmode : w'.mode = "retired hurt") (bt' : Batter)
    (hf : S.inning.batters.find? (fun x => x.name == w'.batter) = some bt')
    (hd : bt'.dismissal = "not out") :
    (updateDismissal ctx b S [w']).2 = none ∧
    (updateDismissal ctx b S [w']).1.inning.fow = S.inning.fow ∧
    (∃ ps, (updateDismissal ctx b S [w']).1.inning.pships = S.inning.pships ++ [ps]) ∧
    (updateDismissal ctx b S [w']).1.pship = {} ∧
    (updateDismissal ctx b S [w']).1.atCrease =
      removeFirst (fun nm => nm == w'.batter) S.atCrease ∧
    ((updateDismissal ctx b S [w']).1.inning.batters.find? (fun x => x.name == w'.batter)).map
      (fun x => x.dismissal) = some "retired hurt" ∧
    (updateDismissal ctx b S [w']).1.inning.scoreVec = S.inning.scoreVec := by
  obtain ⟨h1, h2, h3, h4, h5, h6, h7⟩ := dismissalStep_retired ctx b S w' hmode bt' hf hd
  unfold updateDismissal
  dsimp only
  rw [h1]
  dsimp only
  unfold updateDismissal
  exact ⟨rfl, h2, h3, h4, h5, h6, h7⟩

/-! ## Claims -/

/-- C1.  For every replayed inning whose `run()` completes without error, the
score vector holds the pre-innings penalty runs plus the sum of every ball's
total batting-team runs plus the post-innings penalty runs, and the wicket
count equals the number of dismissal entries whose mode is not a retirement
(`'retired hurt'` / `'retired not out'`). -/
theorem C1_inning_score_invariant (ctx : MatchCtx) (idx : Nat) (data : InningData)
    (h : (runInning ctx idx data).2 = none) :
    (runInning ctx idx data).1.inning.scoreVec =
      (data.penalty_pre.getD 0 + ballRunsSum data.overs.flatten + data.penalty_post.getD 0,
       ballWktsSum data.overs.flatten) := by
  unfold runInning at h ⊢
  dsimp only at h ⊢
  revert h
  split
  · intro h
    simp at h
  · rename_i heq
    intro _
    dsimp only
    rw [absentFold_scoreVec, runOvers_scoreVec ctx data.overs _ heq, initInning_scoreVec]
    dsimp only
    simp [Prod.ext_iff]

/-- Witness for C1 at a concrete replayed inning. -/
theorem C1_inning_score_invariant_witness :
    (runInning wCtx 0 wData).2 = none ∧
    (runInning wCtx 0 wData).1.inning.scoreVec =
      (wData.penalty_pre.getD 0 + ballRunsSum wData.overs.flatten + wData.penalty_post.getD 0,
       ballWktsSum wData.overs.flatten) :=
  ⟨by decide, C1_inning_score_invariant wCtx 0 wData (by decide)⟩


/-- A leg-bye single: one batting-team run, none charged to the bowler. -/
def c2LegbyeBall : BallDict :=
  { batter := "A", non_striker := "B", bowler := "X",
    runs := { batter := 0, total := 1, nonBoundary := false },
    extras := { legbyes := 1 } }

/-- A placeholder over (never read: the fixture lists below are nonempty). -/
def emptyOver : Over := { index := 0, start_score := "" }

/-- Replayed over of five dot balls and a leg-bye single: six legal balls, one
bowler, zero runs charged to the bowler, yet not a maiden. -/
def c2OverA : Over :=
  ((runInning wCtx 0 { team := "Alpha", overs := [[wDot "X", wDot "X", wDot "X", wDot "X", wDot "X", c2LegbyeBall]] }).1.inning.overs).getD 0 emptyOver

/-- Replayed over of five dot balls cut short (an inning can end mid-over):
one bowler, zero runs charged, yet not a maiden. -/
def c2OverB : Over :=
  ((runInning wCtx 0 { team := "Alpha", overs := [[wDot "X", wDot "X", wDot "X", wDot "X", wDot "X"]] }).1.inning.overs).getD 0 emptyOver

/-- Replayed over of six dot balls: a maiden. -/
def c2OverM : Over :=
  ((runInning wCtx 0 { team := "Alpha", overs := [[wDot "X", wDot "X", wDot "X", wDot "X", wDot "X", wDot "X"]] }).1.inning.overs).getD 0 emptyOver

/-- Replayed over in which two bowlers bowled. -/
def c2OverTwo : Over :=
  ((runInning wCtx 0 { team := "Alpha", overs := [[wDot "X", wDot "Y"]] }).1.inning.overs).getD 0 emptyOver

/-- C2 counterexample.  Both replayed overs have exactly one bowler and zero
total runs charged to the bowler (the sum of `bowling_runs`, which is what
`Bowler.runs` accumulates) over all their deliveries, yet `maiden` is false:
over A because a leg-bye keeps `abs(b) - bowling_extras` nonzero, over B
because it has only five legal balls. -/
theorem C2_counterexample :
    (c2OverA.bowlers.length = 1 ∧
     (c2OverA.balls.map (fun b => b.bowling_runs)).sum = 0 ∧
     c2OverA.legalBalls = 6 ∧
     c2OverA.maiden = false) ∧
    (c2OverB.bowlers.length = 1 ∧
     (c2OverB.balls.map (fun b => b.bowling_runs)).sum = 0 ∧
     c2OverB.maiden = false) := by
  decide

/-- C2 (amended).  An over is a maiden when it has six legal balls, exactly
one bowler, and zero total of per-ball batting-team runs net of bowling
extras (`sum(abs(b) - b.bowling_extras) == 0`, which excuses wides and
no-balls — they are subtracted out — but charges leg-byes, byes and penalty
runs against the maiden); an over in which two or more bowlers bowled is
never a maiden. -/
theorem C2_maiden_amended :
    (∀ ov : Over, ov.legalBalls = 6 → ov.bowlers.length = 1 →
      (ov.balls.map (fun b => (b.batting_runs : Int) - (b.bowling_extras : Int))).sum = 0 →
      ov.maiden = true) ∧
    (∀ ov : Over, 2 ≤ ov.bowlers.length → ov.maiden = false) := by
  constructor
  · intro ov h6 h1 hsum
    unfold Over.maiden
    simp [h6, h1, hsum]
  · intro ov h2
    unfold Over.maiden
    have hne : ¬ ov.bowlers.length = 1 := by omega
    simp [hne]

/-- Witness for C2 (amended) at two concrete replayed overs. -/
theorem C2_maiden_amended_witness :
    (c2OverM.legalBalls = 6 ∧ c2OverM.bowlers.length = 1 ∧
      (c2OverM.balls.map (fun b => (b.batting_runs : Int) - (b.bowling_extras : Int))).sum = 0 ∧
      c2OverM.maiden = true) ∧
    (2 ≤ c2OverTwo.bowlers.length ∧ c2OverTwo.maiden = false) :=
  ⟨⟨by decide, by decide, by decide,
    C2_maiden_amended.1 c2OverM (by decide) (by decide) (by decide)⟩,
   ⟨by decide, C2_maiden_amended.2 c2OverTwo (by decide)⟩⟩


/-- Five-over inning in which `X` bowls overs 1, 3 and 5 (0-based 0, 2, 4)
and `Y` the two overs between. -/
def c3Data : InningData :=
  { team := "Alpha", overs := [[wDot "X"], [wDot "Y"], [wDot "X"], [wDot "Y"], [wDot "X"]] }

/-- The number of spells the replay records for `X` in `c3Data`. -/
def c3SpellsX : Option Nat :=
  ((runInning wCtx 0 c3Data).1.inning.bowlers.find? (fun b => b.name == "X")).map
    (fun b => b.spells.length)

/-- The number of spells the replay records for `Y` in `c3Data`. -/
def c3SpellsY : Option Nat :=
  ((runInning wCtx 0 c3Data).1.inning.bowlers.find? (fun b => b.name == "Y")).map
    (fun b => b.spells.length)

/-- Four-over inning in which `X` returns after two other bowlers' overs. -/
def c3GapData : InningData :=
  { team := "Alpha", overs := [[wDot "X"], [wDot "Y"], [wDot "Z"], [wDot "X"]] }

/-- The number of spells the replay records for `X` in `c3GapData`. -/
def c3GapSpellsX : Option Nat :=
  ((runInning wCtx 0 c3GapData).1.inning.bowlers.find? (fun b => b.name == "X")).map
    (fun b => b.spells.length)

/-- C3 counterexample.  A bowler who bowls overs 1, 3 and 5 with exactly one
other over interposed between each accrues one spell entry, not three:
`RealOver.get_bowler` compares against the bowler of the over two prior
(name equality, which the frozen snapshot preserves), so alternating overs
continue the same spell. -/
theorem C3_counterexample : c3SpellsX = some 1 ∧ c3SpellsX ≠ some 3 := by
  decide

/-- C3 (amended).  For a bowler who bowls overs 1, 3 and 5 of an inning with
exactly one other over interposed between each, the replay records ONE
continuous spell (a single entry in their spells list) — and likewise one for
the interposing bowler — while a bowler returning after two intervening overs
does start a second spell. -/
theorem C3_spells_amended :
    c3SpellsX = some 1 ∧ c3SpellsY = some 1 ∧ c3GapSpellsX = some 2 := by
  decide


/-- Four leg-byes: four batting-team runs, none off the bat, no non-boundary
flag. -/
def c4Ball : BallDict :=
  { batter := "A", non_striker := "B", bowler := "X",
    runs := { batter := 0, total := 4, nonBoundary := false },
    extras := { legbyes := 4 } }

/-- The ball the replay constructs for `c4Ball`. -/
def c4Built : Option Ball :=
  ((runInning wCtx 0 { team := "Alpha", overs := [[c4Ball]] }).1.inning.overs.getD 0
    emptyOver).balls.head?

/-- C4 counterexample.  A delivery with zero runs off the bat (four leg-byes,
total four) gets `boundary = true`: `RealBall.__init__` tests
`batting_runs in [4, 6]` on the record's TOTAL, not on the batter-runs field,
so the claim's "boundary only if runs off the bat equal 4 or 6" fails. -/
theorem C4_counterexample :
    c4Built.map (fun b => b.boundary) = some true ∧
    c4Built.map (fun b => b.runs) = some 0 ∧
    ¬ ((0 : Nat) = 4 ∨ (0 : Nat) = 6) := by
  decide

/-- C4 (amended).  The constructed ball's boundary flag is true exactly when
the record's TOTAL batting-team runs equal 4 or 6 and the record does not
carry the non-boundary key; in particular any delivery whose record carries
the non-boundary key has `boundary = false` and leaves the striker's fours
unchanged when applied to their figures. -/
theorem C4_boundary_amended (ctx : MatchCtx) (s : InningSt) (cur : Over) (d : BallDict) :
    (∃ b : Ball, (stepBall ctx s cur d).1.balls = cur.balls ++ [b] ∧
      b.boundary = ((decide (d.runs.total = 4 ∨ d.runs.total = 6)) && !d.runs.nonBoundary)) ∧
    (d.runs.nonBoundary = true →
      ∃ b : Ball, (stepBall ctx s cur d).1.balls = cur.balls ++ [b] ∧
        b.boundary = false ∧ ∀ bt : Batter, (bt.update b).fours = bt.fours) := by
  unfold stepBall
  dsimp only
  constructor
  · exact ⟨_, rfl, rfl⟩
  · intro hnb
    refine ⟨_, rfl, ?_, ?_⟩
    · show ((decide (d.runs.total = 4 ∨ d.runs.total = 6)) && !d.runs.nonBoundary) = false
      rw [hnb]
      simp
    · intro bt
      unfold Batter.update
      dsimp only
      have hb : ((decide (d.runs.total = 4 ∨ d.runs.total = 6)) && !d.runs.nonBoundary) = false := by
        rw [hnb]
        simp
      simp only [mkBall, hb]
      simp

/-- A four off the bat flagged non-boundary in the source record. -/
def c4FlaggedBall : BallDict :=
  { batter := "A", non_striker := "B", bowler := "X",
    runs := { batter := 4, total := 4, nonBoundary := true } }

/-- A fresh over fixture for witnesses. -/
def wCur : Over := { index := 0, start_score := "0-0" }

/-- Witness for C4 (amended) at a concrete flagged delivery. -/
theorem C4_boundary_amended_witness :
    c4FlaggedBall.runs.nonBoundary = true ∧
    (∃ b : Ball,
      (stepBall wCtx (initInning wCtx 0 false) wCur c4FlaggedBall).1.balls = wCur.balls ++ [b] ∧
      b.boundary = false ∧ ∀ bt : Batter, (bt.update b).fours = bt.fours) :=
  ⟨by decide, (C4_boundary_amended wCtx (initInning wCtx 0 false) wCur c4FlaggedBall).2 (by decide)⟩

/-- A delivery whose record stores five no-ball runs under the `noballs`
key. -/
def c10Ball : BallDict :=
  { batter := "A", non_striker := "B", bowler := "X",
    runs := { batter := 0, total := 5, nonBoundary := false },
    extras := { noballs := some 5 } }

/-- C10.  The constructed ball's `no_balls` field is `int(NO_BALLS in extras)`
— one when the key is present (whatever run value it stores) and zero when it
is absent — and `bowling_extras` therefore charges any no-ball delivery
exactly one no-ball run. -/
theorem C10_noball_key_presence (ctx : MatchCtx) (s : InningSt) (cur : Over) (d : BallDict) :
    ∃ b : Ball, (stepBall ctx s cur d).1.balls = cur.balls ++ [b] ∧
      b.no_balls = (if d.extras.noballs.isSome then 1 else 0) ∧
      b.bowling_extras = (if d.extras.noballs.isSome then 1 else 0) + d.extras.wides ∧
      b.extras = (if d.extras.noballs.isSome then 1 else 0) + d.extras.wides +
        (d.extras.legbyes + d.extras.byes + d.extras.penalty) ∧
      (∀ v, d.extras.noballs = some v → b.no_balls = 1) := by
  unfold stepBall
  dsimp only
  refine ⟨_, rfl, rfl, rfl, rfl, ?_⟩
  intro v hv
  show (if d.extras.noballs.isSome then 1 else 0) = 1
  rw [hv]
  rfl

/-- Witness for C10: the record stores `noballs: 5`, yet the ball counts one
no-ball and one bowling extra. -/
theorem C10_noball_key_presence_witness :
    ∃ b : Ball,
      (stepBall wCtx (initInning wCtx 0 false) wCur c10Ball).1.balls = wCur.balls ++ [b] ∧
      b.no_balls = 1 ∧ b.bowling_extras = 1 := by
  obtain ⟨b, hb, h1, h2, h3, h4⟩ :=
    C10_noball_key_presence wCtx (initInning wCtx 0 false) wCur c10Ball
  exact ⟨b, hb, h4 5 (by decide), by rw [h2]; decide⟩

/-- C6.  A wide delivery with five wides and no other runs renders its outcome
as `4wd` (wides minus one), adds five runs and no wicket to the team score,
and leaves both the striker's balls-faced count and the bowler's legal-ball
count unchanged. -/
theorem C6_wide_five (ctx : MatchCtx) (s : InningSt) (cur : Over) (d : BallDict)
    (hwf : ctx.wf)
    (hex : d.extras = { noballs := none, wides := 5, legbyes := 0, byes := 0, penalty := 0 })
    (hruns : d.runs = { batter := 0, total := 5, nonBoundary := false })
    (hw : d.wickets = [])
    (bt : Batter) (hbt : s.inning.batters.find? (fun b => b.name == d.batter) = some bt)
    (bw : Bowler) (hbw : s.inning.bowlers.find? (fun b => b.name == d.bowler) = some bw) :
    (∃ b : Ball, (stepBall ctx s cur d).1.balls = cur.balls ++ [b] ∧ b.value = "4wd") ∧
    (stepBall ctx s cur d).2.1.inning.scoreVec =
      (s.inning.scoreVec.1 + 5, s.inning.scoreVec.2) ∧
    ((stepBall ctx s cur d).2.1.inning.batters.find? (fun b => b.name == d.batter)).map
      (fun b => b.balls) = some bt.balls ∧
    ((stepBall ctx s cur d).2.1.inning.bowlers.find? (fun b => b.name == d.bowler)).map
      (fun b => b.balls) = some bw.balls := by
  obtain ⟨bt1, hf1, hn1, hb1, _, _, _⟩ := getBatter_find_batter ctx s d.batter false d.batter bt hbt
  obtain ⟨bt2, hf2, hn2, hb2, _, _, _⟩ := getBatter_find_batter ctx
    (getBatter ctx s d.batter false).2 d.non_striker false d.batter bt1 hf1
  have hbw1 := getBatter_bowlers ctx s d.batter false ▸ hbw
  have hbw2 := getBatter_bowlers ctx (getBatter ctx s d.batter false).2 d.non_striker false ▸ hbw1
  obtain ⟨bw3, hg3, hgn3, hgb3, _, _, _, _⟩ := overGetBowler_find_bowler ctx
    (getBatter ctx (getBatter ctx s d.batter false).2 d.non_striker false).2 cur.bowlers
    d.bowler hwf d.bowler bw hbw2
  refine ⟨?_, ?_, ?_, ?_⟩
  · unfold stepBall
    dsimp only
    have hv : ballValue d.runs.total (if d.extras.noballs.isSome then 1 else 0)
        d.extras.wides d.extras.legbyes d.extras.byes d.extras.penalty
        (d.wickets.map (fun w => RealWicket.make w d.bowler)) = "4wd" := by
      rw [hex, hruns, hw]
      simp only [List.map_nil]
      decide
    exact ⟨_, rfl, hv⟩
  · rw [stepBall_scoreVec, hruns, hw]
    simp
  · unfold stepBall
    dsimp only
    simp only [hw, List.map_nil, updateDismissal, updateScoreAndPship]
    rw [overGetBowler_batters]
    rw [show some bt.balls = some bt2.balls from by rw [hb2, hb1]]
    refine find?_updateFirst_map _ _ _ _ _ ?_ ?_ hf2
    · intro a ha
      simpa [Batter.update] using ha
    · intro a
      show a.balls + (if d.extras.wides = 0 then 1 else 0) = a.balls
      rw [hex]
      simp
  · unfold stepBall
    dsimp only
    simp only [hw, List.map_nil, updateDismissal, updateScoreAndPship]
    rw [show some bw.balls = some bw3.balls from by rw [hgb3]]
    refine find?_updateFirst_map _ _ _ _ _ ?_ ?_ hg3
    · intro a ha
      simpa [Bowler.update] using ha
    · intro a
      show a.balls + (if (if d.extras.noballs.isSome then 1 else 0) + d.extras.wides = 0
        then 1 else 0) = a.balls
      rw [hex]
      simp

/-- A wide delivery carrying five wides. -/
def wWideBall : BallDict :=
  { batter := "A", non_striker := "B", bowler := "X",
    runs := { batter := 0, total := 5, nonBoundary := false },
    extras := { wides := 5 } }

/-- A state in which `A`, `B` are at the crease and `X` has bowled: one legal
ball already replayed. -/
def c6State : InningSt :=
  (runInning wCtx 0 { team := "Alpha", overs := [[wDot "X"]] }).1

/-- Witness for C6 at a concrete state. -/
theorem C6_wide_five_witness :
    wWideBall.extras = { noballs := none, wides := 5, legbyes := 0, byes := 0, penalty := 0 } ∧
    (∃ b : Ball, (stepBall wCtx c6State wCur wWideBall).1.balls = wCur.balls ++ [b] ∧
      b.value = "4wd") ∧
    (stepBall wCtx c6State wCur wWideBall).2.1.inning.scoreVec =
      (c6State.inning.scoreVec.1 + 5, c6State.inning.scoreVec.2) ∧
    ((stepBall wCtx c6State wCur wWideBall).2.1.inning.batters.find?
      (fun b => b.name == wWideBall.batter)).map (fun b => b.balls) = some 1 ∧
    ((stepBall wCtx c6State wCur wWideBall).2.1.inning.bowlers.find?
      (fun b => b.name == wWideBall.bowler)).map (fun b => b.balls) = some 1 := by
  have hballs : (c6State.inning.bowlers.find? (fun b => b.name == wWideBall.bowler)).map
      (fun b => b.balls) = some 1 := by decide
  rcases hfind : c6State.inning.bowlers.find? (fun b => b.name == wWideBall.bowler) with _ | bwv
  · rw [hfind] at hballs
    cases hballs
  · rw [hfind] at hballs
    have hbv : bwv.balls = 1 := by
      simpa using hballs
    have h := C6_wide_five wCtx c6State wCur wWideBall
      ⟨fun n => rfl, fun n => rfl⟩ (by decide) (by decide) (by decide)
      { name := "A", long_name := "A", short_name := "A", style := "right-hand bat",
        position := some 0, true_position := 0, runs := 0, balls := 1, fours := 0,
        sixes := 0, dismissal := "not out" }
      (by decide) bwv hfind
    refine ⟨by decide, h.1, h.2.1, h.2.2.1, ?_⟩
    rw [h.2.2.2, hbv]


/-- Corollary of `updateDismissal_single_retired` stating the conclusions
against externally supplied values of the pre-state projections, so that it
can be applied with the projections already simplified. -/
theorem updateDismissal_retired_view (ctx : MatchCtx) (b : Ball) (w' : Wicket)
    (S : InningSt) (hmode : w'.mode = "retired hurt") (bt' : Batter)
    (hf : S.inning.batters.find? (fun x => x.name == w'.batter) = some bt')
    (hd : bt'.dismissal = "not out")
    (nm : String) (hnm : w'.batter = nm)
    (V2 : Nat) (hV : S.inning.scoreVec.2 = V2)
    (F : List String) (hF : S.inning.fow = F)
    (P : List String) (hP : S.inning.pships = P)
    (A : List String) (hA : S.atCrease = A)
    (hcnt : A.count nm ≤ 1) :
    (updateDismissal ctx b S [w']).2 = none ∧
    (updateDismissal ctx b S [w']).1.inning.scoreVec.2 = V2 ∧
    (updateDismissal ctx b S [w']).1.inning.fow = F ∧
    (∃ ps, (updateDismissal ctx b S [w']).1.inning.pships = P ++ [ps]) ∧
    (updateDismissal ctx b S [w']).1.pship = {} ∧
    nm ∉ (updateDismissal ctx b S [w']).1.atCrease ∧
    ((updateDismissal ctx b S [w']).1.inning.batters.find? (fun x => x.name == nm)).map
      (fun x => x.dismissal) = some "retired hurt" := by
  obtain ⟨h1, h2, h3, h4, h5, h6, h7⟩ :=
    updateDismissal_single_retired ctx b w' S hmode bt' hf hd
  subst hnm
  subst hV
  subst hF
  subst hP
  subst hA
  refine ⟨h1, by rw [h7], by rw [h2], ?_, h4, ?_, h6⟩
  · obtain ⟨ps, hps⟩ := h3
    exact ⟨ps, hps⟩
  · rw [h5]
    exact not_mem_removeFirst S.atCrease w'.batter hcnt

/-- C5.  A delivery whose single dismissal entry is a "retired hurt"
retirement of the striker: the replay errors nowhere, the team wicket count
is not incremented and no fall-of-wickets entry is appended, the active
partnership is closed (one partnership string recorded, the matrix reset to
zero, the batter removed from the crease), the batter's dismissal text
becomes "retired hurt", and whenever a state holds a batter whose dismissal
is "retired hurt", referencing them again resets the dismissal to "not out"
and returns them to the crease. -/
theorem C5_retired_hurt (ctx : MatchCtx) (s : InningSt) (cur : Over) (d : BallDict)
    (w : WicketsDict) (hw : d.wickets = [w]) (hmode : w.kind = "retired hurt")
    (hwb : w.player_out = d.batter)
    (bt : Batter) (hbt : s.inning.batters.find? (fun b => b.name == d.batter) = some bt)
    (hbtd : bt.dismissal = "not out")
    (ns : Batter) (hns : s.inning.batters.find? (fun b => b.name == d.non_striker) = some ns)
    (hnsd : ns.dismissal = "not out")
    (hcount : s.atCrease.count d.batter ≤ 1) :
    (stepBall ctx s cur d).2.2 = none ∧
    (stepBall ctx s cur d).2.1.inning.scoreVec.2 = s.inning.scoreVec.2 ∧
    (stepBall ctx s cur d).2.1.inning.fow = s.inning.fow ∧
    (∃ ps, (stepBall ctx s cur d).2.1.inning.pships = s.inning.pships ++ [ps]) ∧
    (stepBall ctx s cur d).2.1.pship = {} ∧
    d.batter ∉ (stepBall ctx s cur d).2.1.atCrease ∧
    ((stepBall ctx s cur d).2.1.inning.batters.find? (fun b => b.name == d.batter)).map
      (fun b => b.dismissal) = some "retired hurt" ∧
    (∀ (s2 : InningSt) (bt2 : Batter),
      s2.inning.batters.find? (fun b => b.name == d.batter) = some bt2 →
      bt2.dismissal = "retired hurt" →
      (getBatter ctx s2 d.batter false).1.dismissal = "not out" ∧
      d.batter ∈ (getBatter ctx s2 d.batter false).2.atCrease) := by
  have hgb1 : getBatter ctx s d.batter false = (bt, s) :=
    getBatter_found_notRetired ctx s d.batter false bt hbt (by rw [hbtd]; decide)
  have hgb2 : getBatter ctx s d.non_striker false = (ns, s) :=
    getBatter_found_notRetired ctx s d.non_striker false ns hns (by rw [hnsd]; decide)
  have hwb2 : (RealWicket.make w d.bowler).batter = d.batter := hwb
  have hreinstate : ∀ (s2 : InningSt) (bt2 : Batter),
      s2.inning.batters.find? (fun b => b.name == d.batter) = some bt2 →
      bt2.dismissal = "retired hurt" →
      (getBatter ctx s2 d.batter false).1.dismissal = "not out" ∧
      d.batter ∈ (getBatter ctx s2 d.batter false).2.atCrease := by
    intro s2 bt2 hf2 hd2
    unfold getBatter
    rw [hf2]
    dsimp only
    rw [if_pos hd2]
    exact ⟨rfl, by simp⟩
  unfold stepBall
  dsimp only
  rw [hgb1]
  dsimp only
  rw [hgb2]
  dsimp only
  rw [hw]
  simp only [List.map_cons, List.map_nil, updateScoreAndPship]
  refine ⟨?_, ?_, ?_, ?_, ?_, ?_, ?_, hreinstate⟩
  · exact (updateDismissal_retired_view ctx _ _ _ hmode _
      (by rw [hwb2]
          rw [find?_updateFirst_same _ _ _ (fun a ha => by simpa [Batter.update] using ha)]
          rw [overGetBowler_batters, hbt]
          rfl)
      (by exact hbtd)
      _ hwb2 s.inning.scoreVec.2
      (by dsimp only
          rw [overGetBowler_scoreVec]
          simp +decide [mkBall, RealWicket.make, hmode, RETIRED_HURT, List.filter_cons])
      s.inning.fow (by dsimp only; rw [overGetBowler_fow])
      s.inning.pships (by dsimp only; rw [overGetBowler_pships])
      s.atCrease (by dsimp only; rw [overGetBowler_atCrease]) hcount).1
  · exact (updateDismissal_retired_view ctx _ _ _ hmode _
      (by rw [hwb2]
          rw [find?_updateFirst_same _ _ _ (fun a ha => by simpa [Batter.update] using ha)]
          rw [overGetBowler_batters, hbt]
          rfl)
      (by exact hbtd)
      _ hwb2 s.inning.scoreVec.2
      (by dsimp only
          rw [overGetBowler_scoreVec]
          simp +decide [mkBall, RealWicket.make, hmode, RETIRED_HURT, List.filter_cons])
      s.inning.fow (by dsimp only; rw [overGetBowler_fow])
      s.inning.pships (by dsimp only; rw [overGetBowler_pships])
      s.atCrease (by dsimp only; rw [overGetBowler_atCrease]) hcount).2.1
  · exact (updateDismissal_retired_view ctx _ _ _ hmode _
      (by rw [hwb2]
          rw [find?_updateFirst_same _ _ _ (fun a ha => by simpa [Batter.update] using ha)]
          rw [overGetBowler_batters, hbt]
          rfl)
      (by exact hbtd)
      _ hwb2 s.inning.scoreVec.2
      (by dsimp only
          rw [overGetBowler_scoreVec]
          simp +decide [mkBall, RealWicket.make, hmode, RETIRED_HURT, List.filter_cons])
      s.inning.fow (by dsimp only; rw [overGetBowler_fow])
      s.inning.pships (by dsimp only; rw [overGetBowler_pships])
      s.atCrease (by dsimp only; rw [overGetBowler_atCrease]) hcount).2.2.1
  · exact (updateDismissal_retired_view ctx _ _ _ hmode _
      (by rw [hwb2]
          rw [find?_updateFirst_same _ _ _ (fun a ha => by simpa [Batter.update] using ha)]
          rw [overGetBowler_batters, hbt]
          rfl)
      (by exact hbtd)
      _ hwb2 s.inning.scoreVec.2
      (by dsimp only
          rw [overGetBowler_scoreVec]
          simp +decide [mkBall, RealWicket.make, hmode, RETIRED_HURT, List.filter_cons])
      s.inning.fow (by dsimp only; rw [overGetBowler_fow])
      s.inning.pships (by dsimp only; rw [overGetBowler_pships])
      s.atCrease (by dsimp only; rw [overGetBowler_atCrease]) hcount).2.2.2.1
  · exact (updateDismissal_retired_view ctx _ _ _ hmode _
      (by rw [hwb2]
          rw [find?_updateFirst_same _ _ _ (fun a ha => by simpa [Batter.update] using ha)]
          rw [overGetBowler_batters, hbt]
          rfl)
      (by exact hbtd)
      _ hwb2 s.inning.scoreVec.2
      (by dsimp only
          rw [overGetBowler_scoreVec]
          simp +decide [mkBall, RealWicket.make, hmode, RETIRED_HURT, List.filter_cons])
      s.inning.fow (by dsimp only; rw [overGetBowler_fow])
      s.inning.pships (by dsimp only; rw [overGetBowler_pships])
      s.atCrease (by dsimp only; rw [overGetBowler_atCrease]) hcount).2.2.2.2.1
  · exact (updateDismissal_retired_view ctx _ _ _ hmode _
      (by rw [hwb2]
          rw [find?_updateFirst_same _ _ _ (fun a ha => by simpa [Batter.update] using ha)]
          rw [overGetBowler_batters, hbt]
          rfl)
      (by exact hbtd)
      _ hwb2 s.inning.scoreVec.2
      (by dsimp only
          rw [overGetBowler_scoreVec]
          simp +decide [mkBall, RealWicket.make, hmode, RETIRED_HURT, List.filter_cons])
      s.inning.fow (by dsimp only; rw [overGetBowler_fow])
      s.inning.pships (by dsimp only; rw [overGetBowler_pships])
      s.atCrease (by dsimp only; rw [overGetBowler_atCrease]) hcount).2.2.2.2.2.1
  · exact (updateDismissal_retired_view ctx _ _ _ hmode _
      (by rw [hwb2]
          rw [find?_updateFirst_same _ _ _ (fun a ha => by simpa [Batter.update] using ha)]
          rw [overGetBowler_batters, hbt]
          rfl)
      (by exact hbtd)
      _ hwb2 s.inning.scoreVec.2
      (by dsimp only
          rw [overGetBowler_scoreVec]
          simp +decide [mkBall, RealWicket.make, hmode, RETIRED_HURT, List.filter_cons])
      s.inning.fow (by dsimp only; rw [overGetBowler_fow])
      s.inning.pships (by dsimp only; rw [overGetBowler_pships])
      s.atCrease (by dsimp only; rw [overGetBowler_atCrease]) hcount).2.2.2.2.2.2


/-- Fixture batter for the retirement scenario. -/
def c5Bt (nm : String) (pos : Nat) : Batter :=
  { name := nm, long_name := nm, short_name := nm, style := "", position := some pos,
    true_position := pos }

/-- Mid-innings state with `A` and `B` at the crease. -/
def c5St : InningSt :=
  { inning := { index := 0, batting_team := "Alpha", fielding_team := "Beta",
                super_over := false, batters := [c5Bt "A" 1, c5Bt "B" 2],
                title := "Alpha Innings" }
    atCrease := ["A", "B"] }

/-- `A` retires hurt on a dot ball from `X`. -/
def c5Ball : BallDict :=
  { batter := "A", non_striker := "B", bowler := "X",
    runs := { batter := 0, total := 0, nonBoundary := false },
    wickets := [{ kind := "retired hurt", player_out := "A" }] }

theorem C5_retired_hurt_witness :
    (stepBall wCtx c5St emptyOver c5Ball).2.2 = none ∧
    (stepBall wCtx c5St emptyOver c5Ball).2.1.inning.scoreVec.2 = c5St.inning.scoreVec.2 ∧
    (stepBall wCtx c5St emptyOver c5Ball).2.1.inning.fow = c5St.inning.fow ∧
    (∃ ps, (stepBall wCtx c5St emptyOver c5Ball).2.1.inning.pships =
      c5St.inning.pships ++ [ps]) ∧
    (stepBall wCtx c5St emptyOver c5Ball).2.1.pship = {} ∧
    "A" ∉ (stepBall wCtx c5St emptyOver c5Ball).2.1.atCrease ∧
    ((stepBall wCtx c5St emptyOver c5Ball).2.1.inning.batters.find?
        (fun b => b.name == "A")).map (fun b => b.dismissal) = some "retired hurt" := by
  have h := C5_retired_hurt wCtx c5St emptyOver c5Ball
    { kind := "retired hurt", player_out := "A" } rfl rfl rfl
    (c5Bt "A" 1) rfl rfl (c5Bt "B" 2) rfl rfl (by decide)
  exact ⟨h.1, h.2.1, h.2.2.1, h.2.2.2.1, h.2.2.2.2.1, h.2.2.2.2.2.1, h.2.2.2.2.2.2.1⟩


/-- The dismissal-mode vocabulary that `RealBatter.set_dismissal` recognises
(every mode with a non-raising branch). -/
def KNOWN_DISMISSAL_MODES : List String :=
  [BOWLED, LBW, CAUGHT, CAUGHT_AND_BOWLED, STUMPED, RUN_OUT, "retired hurt",
   "retired not out", HIT_WICKET, OBSTRUCTING_THE_FIELD, TIMED_OUT, HANDLED_THE_BALL]

/-- `set_dismissal` on a mode outside the vocabulary reaches the final
`raise ValueError` branch. -/
theorem setDismissal_unseen (mode : String) (bw : Bowler) (fs : List Fielder)
    (h : mode ∉ KNOWN_DISMISSAL_MODES) :
    setDismissal mode bw fs = .error ("unseen mode: " ++ mode) := by
  simp only [KNOWN_DISMISSAL_MODES, BOWLED, LBW, CAUGHT, CAUGHT_AND_BOWLED, STUMPED,
    RUN_OUT, HIT_WICKET, OBSTRUCTING_THE_FIELD, TIMED_OUT, HANDLED_THE_BALL,
    List.mem_cons, List.not_mem_nil, not_or, or_false] at h
  obtain ⟨h1, h2, h3, h4, h5, h6, h7, h8, h9, h10, h11, h12⟩ := h
  have hrh : ¬ (RETIRED_HURT.contains mode = true) := by
    simp [RETIRED_HURT]
    exact ⟨h7, h8⟩
  unfold setDismissal
  simp only [BOWLED, LBW, CAUGHT, CAUGHT_AND_BOWLED, STUMPED, RUN_OUT, HIT_WICKET,
    OBSTRUCTING_THE_FIELD, TIMED_OUT, HANDLED_THE_BALL]
  rw [if_neg h1, if_neg h2, if_neg h3, if_neg h4, if_neg h5, if_neg h6, if_neg hrh,
    if_neg h9, if_neg h10, if_neg h11, if_neg h12]
  show Except.error ("unseen mode: " ++ mode ++ "") = Except.error ("unseen mode: " ++ mode)
  rw [String.append_empty]

/-- `dismissalStep` on a fielder-less wicket entry whose mode is outside the
vocabulary: the error is raised and the state returned is the input state. -/
theorem dismissalStep_unseen (ctx : MatchCtx) (b : Ball) (s : InningSt) (w : Wicket)
    (hunk : w.mode ∉ KNOWN_DISMISSAL_MODES) (hfld : w.fielders = [])
    (bt : Batter) (hbt : s.inning.batters.find? (fun x => x.name == w.batter) = some bt)
    (hbtd : bt.dismissal = "not out") :
    dismissalStep ctx b s w = (s, some ("unseen mode: " ++ w.mode)) := by
  have hgb : getBatter ctx s w.batter false = (bt, s) :=
    getBatter_found_notRetired ctx s w.batter false bt hbt (by rw [hbtd]; decide)
  unfold dismissalStep
  dsimp only
  rw [hgb]
  dsimp only
  rw [hfld]
  dsimp only [List.foldl]
  rw [setDismissal_unseen _ _ _ hunk]

/-- `update_dismissal` on a single wicket entry whose mode is outside the
vocabulary. -/
theorem updateDismissal_single_unseen (ctx : MatchCtx) (b : Ball) (w : Wicket)
    (S : InningSt) (hunk : w.mode ∉ KNOWN_DISMISSAL_MODES) (hfld : w.fielders = [])
    (bt : Batter) (hbt : S.inning.batters.find? (fun x => x.name == w.batter) = some bt)
    (hbtd : bt.dismissal = "not out") :
    updateDismissal ctx b S [w] = (S, some ("unseen mode: " ++ w.mode)) := by
  have h := dismissalStep_unseen ctx b S w hunk hfld bt hbt hbtd
  unfold updateDismissal
  dsimp only
  rw [h]

/-- Corollary of `updateDismissal_single_unseen` stating the conclusions
against externally supplied values of the pre-state projections. -/
theorem updateDismissal_unseen_view (ctx : MatchCtx) (b : Ball) (w : Wicket)
    (S : InningSt) (hunk : w.mode ∉ KNOWN_DISMISSAL_MODES) (hfld : w.fielders = [])
    (bt : Batter) (hbt : S.inning.batters.find? (fun x => x.name == w.batter) = some bt)
    (hbtd : bt.dismissal = "not out")
    (q : Batter → Bool) (g : Batter → Nat × Nat) (X : Option (Nat × Nat))
    (hX : (S.inning.batters.find? q).map g = X)
    (V : Nat) (hV : S.inning.scoreVec.1 = V) :
    (updateDismissal ctx b S [w]).2 = some ("unseen mode: " ++ w.mode) ∧
    ((updateDismissal ctx b S [w]).1.inning.batters.find? q).map g = X ∧
    (updateDismissal ctx b S [w]).1.inning.scoreVec.1 = V := by
  have h := updateDismissal_single_unseen ctx b w S hunk hfld bt hbt hbtd
  refine ⟨?_, ?_, ?_⟩
  · rw [h]
  · rw [h]
    exact hX
  · rw [h]
    exact hV


/-- A single off the bat to `A` carrying a dismissal entry with the unknown
mode "hit by asteroid". -/
def c7Ball : BallDict :=
  { batter := "A", non_striker := "B", bowler := "X",
    runs := { batter := 1, total := 1, nonBoundary := false },
    wickets := [{ kind := "hit by asteroid", player_out := "A" }] }

/-- C7 counterexample.  The spec says an unrecognised dismissal-mode string
makes the replay reject the whole delivery with "no part of the delivery's
statistics applied".  Replaying a single with the unknown mode
"hit by asteroid" does raise the fatal error, but the striker's runs and
balls-faced and the team score have already been applied when it is raised:
`RealBall.run` updates the striker, the bowler and the score before it
resolves dismissals. -/
theorem C7_counterexample :
    (stepBall wCtx c5St emptyOver c7Ball).2.2 =
      some ("unseen mode: " ++ "hit by asteroid") ∧
    ((stepBall wCtx c5St emptyOver c7Ball).2.1.inning.batters.find?
      (fun b => b.name == "A")).map (fun b => (b.runs, b.balls)) = some (1, 1) ∧
    (stepBall wCtx c5St emptyOver c7Ball).2.1.inning.scoreVec.1 =
      c5St.inning.scoreVec.1 + 1 := by
  refine ⟨?_, ?_, ?_⟩ <;> decide

/-- C7 (amended).  A delivery carrying a fielder-less dismissal entry whose
mode string is outside the expected vocabulary makes the replay raise the
fatal `unseen mode` error — the dismissal is not silently dropped — but the
delivery is not wholly rejected: by the time the error is raised the
striker's batting statistics (runs and balls faced) and the team score have
already been applied. -/
theorem C7_unseen_mode_amended (ctx : MatchCtx) (s : InningSt) (cur : Over) (d : BallDict)
    (w : WicketsDict) (hw : d.wickets = [w])
    (hunk : w.kind ∉ KNOWN_DISMISSAL_MODES) (hfld : w.fielders = [])
    (hwb : w.player_out = d.batter)
    (bt : Batter) (hbt : s.inning.batters.find? (fun b => b.name == d.batter) = some bt)
    (hbtd : bt.dismissal = "not out")
    (ns : Batter) (hns : s.inning.batters.find? (fun b => b.name == d.non_striker) = some ns)
    (hnsd : ns.dismissal = "not out") :
    (stepBall ctx s cur d).2.2 = some ("unseen mode: " ++ w.kind) ∧
    ((stepBall ctx s cur d).2.1.inning.batters.find? (fun b => b.name == d.batter)).map
      (fun b => (b.runs, b.balls)) =
      some (bt.runs + d.runs.batter,
            bt.balls + (if d.extras.wides = 0 then 1 else 0)) ∧
    (stepBall ctx s cur d).2.1.inning.scoreVec.1 = s.inning.scoreVec.1 + d.runs.total := by
  have hgb1 : getBatter ctx s d.batter false = (bt, s) :=
    getBatter_found_notRetired ctx s d.batter false bt hbt (by rw [hbtd]; decide)
  have hgb2 : getBatter ctx s d.non_striker false = (ns, s) :=
    getBatter_found_notRetired ctx s d.non_striker false ns hns (by rw [hnsd]; decide)
  have hwb2 : (RealWicket.make w d.bowler).batter = d.batter := hwb
  unfold stepBall
  dsimp only
  rw [hgb1]
  dsimp only
  rw [hgb2]
  dsimp only
  rw [hw]
  simp only [List.map_cons, List.map_nil, updateScoreAndPship]
  refine ⟨?_, ?_, ?_⟩
  · exact (updateDismissal_unseen_view ctx _ _ _ (by exact hunk) (by exact hfld) _
      (by rw [hwb2]
          rw [find?_updateFirst_same _ _ _ (fun a ha => by simpa [Batter.update] using ha)]
          rw [overGetBowler_batters, hbt]
          rfl)
      (by exact hbtd)
      (fun b => b.name == d.batter) (fun b => (b.runs, b.balls)) _
      (by rw [find?_updateFirst_same _ _ _ (fun a ha => by simpa [Batter.update] using ha)])
      (s.inning.scoreVec.1 + d.runs.total)
      (by dsimp only
          rw [overGetBowler_scoreVec]
          rfl)).1
  · exact (updateDismissal_unseen_view ctx _ _ _ (by exact hunk) (by exact hfld) _
      (by rw [hwb2]
          rw [find?_updateFirst_same _ _ _ (fun a ha => by simpa [Batter.update] using ha)]
          rw [overGetBowler_batters, hbt]
          rfl)
      (by exact hbtd)
      (fun b => b.name == d.batter) (fun b => (b.runs, b.balls)) _
      (by rw [find?_updateFirst_same _ _ _ (fun a ha => by simpa [Batter.update] using ha)]
          rw [overGetBowler_batters, hbt]
          rfl)
      (s.inning.scoreVec.1 + d.runs.total)
      (by dsimp only
          rw [overGetBowler_scoreVec]
          rfl)).2.1
  · exact (updateDismissal_unseen_view ctx _ _ _ (by exact hunk) (by exact hfld) _
      (by rw [hwb2]
          rw [find?_updateFirst_same _ _ _ (fun a ha => by simpa [Batter.update] using ha)]
          rw [overGetBowler_batters, hbt]
          rfl)
      (by exact hbtd)
      (fun b => b.name == d.batter) (fun b => (b.runs, b.balls)) _
      (by rw [find?_updateFirst_same _ _ _ (fun a ha => by simpa [Batter.update] using ha)])
      (s.inning.scoreVec.1 + d.runs.total)
      (by dsimp only
          rw [overGetBowler_scoreVec]
          rfl)).2.2

theorem C7_unseen_mode_amended_witness :
    (stepBall wCtx c5St emptyOver c7Ball).2.2 =
      some ("unseen mode: " ++ "hit by asteroid") ∧
    ((stepBall wCtx c5St emptyOver c7Ball).2.1.inning.batters.find?
      (fun b => b.name == "A")).map (fun b => (b.runs, b.balls)) =
      some (0 + 1, 0 + (if 0 = 0 then 1 else 0)) ∧
    (stepBall wCtx c5St emptyOver c7Ball).2.1.inning.scoreVec.1 =
      c5St.inning.scoreVec.1 + 1 := by
  have h := C7_unseen_mode_amended wCtx c5St emptyOver c7Ball
    { kind := "hit by asteroid", player_out := "A" } rfl (by decide) rfl rfl
    (c5Bt "A" 1) rfl rfl (c5Bt "B" 2) rfl rfl
  exact h


/-- C9.  The strike-rate and economy formulas add `1e-5` to their
denominators, so for every batter accumulator (any balls-faced count,
including zero) and every bowler accumulator (any legal-ball count,
including zero) the denominator is nonzero and no division-by-zero can
occur; at zero balls the value is the defined sentinel `runs * 10^7`
(strike rate) resp. `runs * 10^5` (economy) — effectively infinite for
nonzero runs — and it is zero exactly when the runs component is zero. -/
theorem C9_zero_balls_sentinel (runs balls : Nat) (rI : Int) :
    ((balls : ℚ) + 1 / 100000 ≠ 0) ∧
    ((balls : ℚ) / 6 + 1 / 100000 ≠ 0) ∧
    strikeRateVal runs 0 = (runs : ℚ) * 10000000 ∧
    economyVal rI 0 = (rI : ℚ) * 100000 ∧
    (strikeRateVal runs 0 = 0 ↔ runs = 0) ∧
    (economyVal rI 0 = 0 ↔ rI = 0) := by
  have h1 : strikeRateVal runs 0 = (runs : ℚ) * 10000000 := by
    unfold strikeRateVal
    push_cast
    field_simp
    ring
  have h2 : economyVal rI 0 = (rI : ℚ) * 100000 := by
    unfold economyVal
    push_cast
    field_simp
  refine ⟨by positivity, by positivity, h1, h2, ?_, ?_⟩
  · rw [h1, mul_eq_zero]
    norm_num
  · rw [h2, mul_eq_zero]
    norm_num


/-- Decoding an encoded over list preserves the recomputed score vector: the
last ball's persisted `score` string is what `_score` is recomputed from. -/
theorem recomputeScoreVec_roundtrip (overs : List Over) :
    recomputeScoreVec ((overs.map encOver).map decOver) = recomputeScoreVec overs := by
  unfold recomputeScoreVec
  rw [List.map_map, List.getLast?_map]
  cases h : overs.getLast? with
  | none => rfl
  | some ov =>
    show (match (decOver (encOver ov)).balls.getLast? with
      | none => (0, 0)
      | some b => parseScore b.score) =
      (match ov.balls.getLast? with
      | none => (0, 0)
      | some b => parseScore b.score)
    have hb : (decOver (encOver ov)).balls.getLast? =
        (ov.balls.getLast?).map (fun b => decBall (encBall b)) := by
      show ((ov.balls.map encBall).map decBall).getLast? = _
      rw [List.map_map, List.getLast?_map]
      rfl
    rw [hb]
    cases ov.balls.getLast? with
    | none => rfl
    | some b => rfl

/-- Round-tripping one over through its encoding preserves the ball-by-ball
scorecard inputs, provided each ball's derived fields are consistent (the
recomputed `bowling_extras` then agrees with the original). -/
theorem overView_roundtrip (ov : Over) (h : ∀ b ∈ ov.balls, b.consistent) :
    overView (decOver (encOver ov)) = overView ov := by
  unfold overView decOver encOver
  dsimp only
  simp only [Prod.mk.injEq]
  refine ⟨trivial, trivial, ?_, ?_⟩
  · rw [List.map_map]
    rfl
  · rw [List.map_map, List.map_map]
    refine List.map_congr_left (fun b hb => ?_)
    obtain ⟨h1, _⟩ := h b hb
    show (b.value, b.score, b.no_balls + b.wides, b.batting_runs) =
      (b.value, b.score, b.bowling_extras, b.batting_runs)
    rw [h1]

/-- Round-tripping one inning through its encoding preserves all three
scorecard input sets, provided every ball is consistent and the stored score
vector equals the one recomputed from the last ball's score string. -/
theorem inningView_roundtrip (inn : Inning)
    (hcons : ∀ ov ∈ inn.overs, ∀ b ∈ ov.balls, b.consistent)
    (hscore : inn.scoreVec = recomputeScoreVec inn.overs) :
    inningScorecardView (decInning (encInning inn)) = inningScorecardView inn := by
  unfold inningScorecardView decInning encInning
  dsimp only
  simp only [Prod.mk.injEq]
  refine ⟨trivial, ?_, ?_, ?_, trivial⟩
  · rw [List.map_map]
    rfl
  · rw [List.map_map, List.map_map]
    exact List.map_congr_left (fun ov hov => overView_roundtrip ov (hcons ov hov))
  · rw [recomputeScoreVec_roundtrip]
    exact hscore.symm

/-- The replay inputs of the counterexample and witness matches. -/
def c8Mi : MatchInfo :=
  { teams := ["Alpha", "Beta"],
    playerOf := fun _ nm => simplePlayer nm,
    xiOf := fun t => if t == "Alpha" then ["A", "B"] else ["X", "Y"],
    keeperOf := fun _ => "X" }

/-- One inning of one single, then 5 post-innings penalty runs. -/
def c8Data : List InningData :=
  [{ team := "Alpha", overs := [[wSingle]], penalty_post := some 5 }]

/-- The same inning without the post-innings penalty. -/
def c8GoodData : List InningData :=
  [{ team := "Alpha", overs := [[wSingle]] }]

/-! Registered stepwise so that equality of the nested scorecard-view tuples
is decidable (the default search does not find the deeper products). -/

instance : DecidableEq (List String × List (String × String × Nat × Nat)) :=
  instDecidableEqProd

instance : DecidableEq (String × List String × List (String × String × Nat × Nat)) :=
  instDecidableEqProd

instance : DecidableEq (Nat × String × List String × List (String × String × Nat × Nat)) :=
  instDecidableEqProd

instance : DecidableEq ((Nat × Nat) × Bool) :=
  instDecidableEqProd

instance : DecidableEq (List (Nat × String × List String × List (String × String × Nat × Nat)) × (Nat × Nat) × Bool) :=
  instDecidableEqProd

instance : DecidableEq (List Bowler × List (Nat × String × List String × List (String × String × Nat × Nat)) × (Nat × Nat) × Bool) :=
  instDecidableEqProd

instance : DecidableEq (List Batter × List Bowler × List (Nat × String × List String × List (String × String × Nat × Nat)) × (Nat × Nat) × Bool) :=
  instDecidableEqProd

/-- C8 counterexample.  The spec says serialise-then-deserialise reproduces
byte-identical scorecards.  A replayed match whose inning was awarded 5
post-innings penalty runs refutes it: decoding recomputes `_score` from the
last ball's persisted score string, which predates the penalty, so the
decoded inning's batting-card total differs from the original's. -/
theorem C8_counterexample :
    (runMatchG c8Mi c8Data).2 = none ∧
    matchScorecardView (decMatch (encMatch (runMatchG c8Mi c8Data).1)) ≠
      matchScorecardView (runMatchG c8Mi c8Data).1 := by
  refine ⟨?_, ?_⟩ <;> decide

/-- C8 (amended).  Serialising and then deserialising a match reproduces an
object graph whose batting, bowling and ball-by-ball scorecards are
byte-identical to the original's, provided each inning's stored score vector
agrees with the one recomputed from its last ball's score string (true
exactly when no post-innings penalty or other post-hoc score change ever
detached `_score` from the ball trail) and every ball's derived fields are
consistent with its raw fields (true of every replayed ball). -/
theorem C8_roundtrip_amended (m : MatchG)
    (hcons : ∀ inn ∈ m.innings, ∀ ov ∈ inn.overs, ∀ b ∈ ov.balls, b.consistent)
    (hscore : ∀ inn ∈ m.innings, inn.scoreVec = recomputeScoreVec inn.overs) :
    matchScorecardView (decMatch (encMatch m)) = matchScorecardView m := by
  unfold matchScorecardView decMatch encMatch
  dsimp only
  rw [List.map_map, List.map_map]
  exact List.map_congr_left (fun inn hinn =>
    inningView_roundtrip inn (hcons inn hinn) (hscore inn hinn))

theorem C8_roundtrip_amended_witness :
    (∀ inn ∈ (runMatchG c8Mi c8GoodData).1.innings, ∀ ov ∈ inn.overs,
      ∀ b ∈ ov.balls, b.consistent) ∧
    (∀ inn ∈ (runMatchG c8Mi c8GoodData).1.innings,
      inn.scoreVec = recomputeScoreVec inn.overs) ∧
    matchScorecardView (decMatch (encMatch (runMatchG c8Mi c8GoodData).1)) =
      matchScorecardView (runMatchG c8Mi c8GoodData).1 :=
  ⟨by decide, by decide,
   C8_roundtrip_amended (runMatchG c8Mi c8GoodData).1 (by decide) (by decide)⟩

end CricketRnn
